import Mathlib

/-!
# VeriBatch core — shallow embedding

A shallow embedding of the batch-lineage / quantity-conservation core of the
VeriBatch backend (`src/backend/app/services/validation.py`,
`event_service.py`, `batch_service.py`, `traceability_service.py`, and the
OOJ entity serializers in `src/backend/ooj_client/`).

Modelling conventions:
* All operations are scoped to a single actor, so `actor_id` parameters and
  the `(actor_id, id)` keying of the store collapse to keying by `id`.
  (`validate_production_inputs` and the traceability scans default a missing
  per-entry `actor_id` to the operation's own actor, which is the identity in
  a single-actor store.)
* Python floats are modelled as rationals (`ℚ`); the tolerance literals
  `0.01` and `0.05` become `1/100` and `5/100`.
* JSON quantity objects with possibly-missing keys are `QuantityDoc`
  (an `Option` per key); a missing key models `dict.get` returning the
  default.  Python truthiness of such a dict (`{}` is falsy) is `qdTruthy`;
  truthiness of an optional string (`None` and `""` are falsy) is `sTruthy`.
* Exceptions become an explicit `Err` result.  Mutating operations return
  `Except Err α × Store`: the returned store is the session state at the
  moment the exception propagates (each sub-write commits immediately in the
  source, so partial mutations survive an exception).
* The SQLAlchemy unique index `(actor_id, id)` on batches and events makes
  inserting a duplicate id fail at commit; this is the `Err.integrity` case.
* Wall-clock timestamps (`datetime.utcnow()`) are irrelevant to the verified
  claims; operations take the already-resolved `timestamp` as a parameter and
  the `created_at`/`updated_at` bookkeeping fields are not modelled.
-/

namespace VeriBatch

/-- Python truthiness of an optional string: `None` and `""` are falsy. -/
def sTruthy : Option String → Bool
  | none => false
  | some s => s ≠ ""

/-- A JSON quantity object `{amount?, unit?}` with possibly-missing keys. -/
structure QuantityDoc where
  amount : Option ℚ
  unit : Option String
deriving Repr, DecidableEq

/-- Python truthiness of a quantity dict: the empty dict `{}` is falsy.
(Quantity dicts in this system carry at most the keys `amount` and `unit`.) -/
def qdTruthy (q : QuantityDoc) : Bool :=
  q.amount.isSome || q.unit.isSome

/-- Truthiness of `doc.get("quantity")`: missing key, `None` and `{}` are falsy. -/
def qdOptTruthy : Option QuantityDoc → Bool
  | none => false
  | some q => qdTruthy q

/-- `ooj_client.models.Quantity`: a fully-populated quantity value. -/
structure Quantity where
  amount : ℚ
  unit : String
deriving Repr, DecidableEq

/-- An entry of an event's `inputs` array: `{batch_id?, amount?}`.
(The optional cross-actor `actor_id` key is the identity in a single-actor
store and is not modelled.) -/
structure InputRef where
  batch_id : Option String
  amount : Option QuantityDoc
deriving Repr, DecidableEq

/-- An entry of an event's `outputs` array / an output specification:
`{batch_id?, item_id?, amount?}`. -/
structure OutputSpec where
  batch_id : Option String
  item_id : Option String
  amount : Option QuantityDoc
deriving Repr, DecidableEq

/-- A stored batch row (`db_models.Batch` together with the fields of its
`jsonb_doc` that the core operations read).  The `status` column and the
doc's `status` key are written together by every modelled operation, so they
are one field here. -/
structure Batch where
  id : String
  item_id : String
  status : String
  production_date : Option String
  expiration_date : Option String
  quantity : Option QuantityDoc
  origin_kind : Option String
  location_id : Option String
deriving Repr, DecidableEq

/-- A stored event row: the `jsonb_doc` fields the core operations read
(`id`, `event_type`, `timestamp`, `inputs`, `outputs`, `notes`,
`location_id`, `process_id`).  The source only writes the `inputs` /
`outputs` keys when the lists are non-empty; readers default a missing key
to `[]`, so a plain list is an equivalent model. -/
structure EventDoc where
  id : String
  event_type : String
  timestamp : String
  inputs : List InputRef
  outputs : List OutputSpec
  notes : Option String
  location_id : Option String
  process_id : Option String
deriving Repr, DecidableEq

/-- The persistent store of one actor: its batch rows and event rows, in
insertion order (`query(...).first()` scans in order). -/
structure Store where
  batches : List Batch
  events : List EventDoc
deriving Repr, DecidableEq

/-- The error taxonomy: `ValidationError`, `ValueError`, `KeyError`, and
database `IntegrityError` (unique-index or NOT NULL violation at commit). -/
inductive Err where
  | validation (msg : String)
  | valueErr (msg : String)
  | keyErr (key : String)
  | integrity (msg : String)
deriving Repr, DecidableEq

/-- `batch_service.get_batch` / the `(actor_id, id)` batch lookup:
first row whose `id` matches. -/
def getBatch (s : Store) (batch_id : String) : Option Batch :=
  s.batches.find? (fun b => b.id = batch_id)

/-- Lookup of an event row by id. -/
def getEvent (s : Store) (event_id : String) : Option EventDoc :=
  s.events.find? (fun e => e.id = event_id)

/-- Replace the first batch row whose `id` matches (SQLAlchemy mutates the
single row returned by `.first()`). -/
def updateFirstBatch (l : List Batch) (batch_id : String) (f : Batch → Batch) :
    List Batch :=
  match l with
  | [] => []
  | b :: rest =>
    if b.id = batch_id then f b :: rest
    else b :: updateFirstBatch rest batch_id f

end VeriBatch

namespace VeriBatch

/-! ## `app/services/validation.py` -/

/-- `validation.validate_batch_quantity`: `None` and `{}` pass; otherwise
`amount` and `unit` must be present and `amount` must be non-negative.
(The `isinstance` number check always holds: amounts are `ℚ` by type.) -/
def validate_batch_quantity : Option QuantityDoc → Except Err Unit
  | none => .ok ()
  | some q =>
    if ¬ qdTruthy q then .ok ()
    else
      match q.amount with
      | none => .error (.validation "Quantity must have amount field")
      | some a =>
        match q.unit with
        | none => .error (.validation "Quantity must have unit field")
        | some _ =>
          if a < 0 then .error (.validation "Quantity amount cannot be negative")
          else .ok ()

/-- `validation.validate_date_order`: if both dates are present (and truthy),
the expiration must be strictly later in string (ISO) order. -/
def validate_date_order (production_date expiration_date : Option String) :
    Except Err Unit :=
  match production_date, expiration_date with
  | some p, some e =>
    if ¬ (sTruthy (some p) ∧ sTruthy (some e)) then .ok ()
    else if e ≤ p then
      .error (.validation "Expiration date must be after production date")
    else .ok ()
  | _, _ => .ok ()

/-- The unit-check-and-sum loop of `validate_split_quantities`: each output's
unit (defaulting to the source unit) must equal the source unit; returns the
summed output amounts. -/
def splitOutputsTotal (source_unit : String) :
    List OutputSpec → Except Err ℚ
  | [] => .ok 0
  | o :: rest =>
    let oq := o.amount.getD ⟨none, none⟩
    let output_amount := oq.amount.getD 0
    let output_unit := oq.unit.getD source_unit
    if output_unit ≠ source_unit then
      .error (.validation "Output unit does not match source unit")
    else
      match splitOutputsTotal source_unit rest with
      | .error e => .error e
      | .ok t => .ok (output_amount + t)

/-- `validation.validate_split_quantities`: the source batch must exist; if it
tracks a quantity, output units must match and the output total must not
exceed `source_amount * (1 + 1/100)`. -/
def validate_split_quantities (s : Store) (source_batch_id : String)
    (output_batches : List OutputSpec) : Except Err Unit :=
  match getBatch s source_batch_id with
  | none => .error (.validation "Source batch not found")
  | some source_batch =>
    match source_batch.quantity with
    | none => .ok ()
    | some source_qty =>
      if ¬ qdTruthy source_qty then .ok ()
      else
        let source_amount := source_qty.amount.getD 0
        let source_unit := source_qty.unit.getD "unit"
        match splitOutputsTotal source_unit output_batches with
        | .error e => .error e
        | .ok total_output =>
          if total_output > source_amount + source_amount * (1 / 100) then
            .error (.validation "Split outputs exceed source batch quantity")
          else .ok ()

/-- The source-scanning loop of `validate_merge_quantities`: accumulates the
total tracked input amount and the common unit; fails on a missing batch or a
unit mismatch. -/
def mergeScan (s : Store) :
    List String → ℚ → Option String → Except Err (ℚ × Option String)
  | [], total, common => .ok (total, common)
  | batch_id :: rest, total, common =>
    match getBatch s batch_id with
    | none => .error (.validation "Source batch not found")
    | some b =>
      match b.quantity with
      | none => mergeScan s rest total common
      | some qty =>
        if ¬ qdTruthy qty then mergeScan s rest total common
        else
          let amount := qty.amount.getD 0
          let unit := qty.unit.getD "unit"
          match common with
          | none => mergeScan s rest (total + amount) (some unit)
          | some cu =>
            if unit ≠ cu then
              .error (.validation "Cannot merge batches with different units")
            else mergeScan s rest (total + amount) (some cu)

/-- `validation.validate_merge_quantities`: scans the sources, then requires
the output unit (defaulting to the common unit) to equal the common unit and
the output amount not to exceed `total * (1 + 5/100)`. -/
def validate_merge_quantities (s : Store) (source_batch_ids : List String)
    (output_quantity : QuantityDoc) : Except Err Unit :=
  match mergeScan s source_batch_ids 0 none with
  | .error e => .error e
  | .ok (total_input, common_unit) =>
    let output_amount := output_quantity.amount.getD 0
    let output_unit : Option String :=
      match output_quantity.unit with
      | some u => some u
      | none => common_unit
    if output_unit ≠ common_unit then
      .error (.validation "Output unit does not match input unit")
    else if output_amount > total_input + total_input * (5 / 100) then
      .error (.validation "Merge output exceeds total inputs")
    else .ok ()

/-- `validation.validate_production_inputs`: every (truthily) referenced
input batch must exist and be `active` or `quarantined`; a truthy requested
amount must match the batch's unit and not exceed its tracked amount. -/
def validate_production_inputs (s : Store) :
    List InputRef → Except Err Unit
  | [] => .ok ()
  | input_ref :: rest =>
    match input_ref.batch_id with
    | none => validate_production_inputs s rest
    | some batch_id =>
      if batch_id = "" then validate_production_inputs s rest
      else
        match getBatch s batch_id with
        | none => .error (.validation "Input batch not found")
        | some b =>
          if b.status ≠ "active" ∧ b.status ≠ "quarantined" then
            .error (.validation "Input batch is not available")
          else
            let requested_amount := input_ref.amount.getD ⟨none, none⟩
            if qdTruthy requested_amount then
              match b.quantity with
              | none => validate_production_inputs s rest
              | some batch_qty =>
                if ¬ qdTruthy batch_qty then validate_production_inputs s rest
                else
                  let batch_amount := batch_qty.amount.getD 0
                  let batch_unit := batch_qty.unit.getD "unit"
                  let req_amount := requested_amount.amount.getD 0
                  let req_unit := requested_amount.unit.getD batch_unit
                  if req_unit ≠ batch_unit then
                    .error (.validation "Requested unit does not match batch unit")
                  else if req_amount > batch_amount then
                    .error (.validation "Requested amount exceeds available quantity")
                  else validate_production_inputs s rest
            else validate_production_inputs s rest

end VeriBatch

namespace VeriBatch

/-! ## `app/services/batch_service.py` -/

/-- `batch_service.create_batch`: validates the quantity (when given) and the
date order, then inserts the new row.  The insert fails at commit with an
`IntegrityError` when the unique index `(actor_id, id)` is violated or when
`item_id` is NULL (column `nullable=False`). -/
def create_batch (s : Store) (batch_id : String) (item_id : Option String)
    (quantity : Option Quantity) (status : String)
    (production_date expiration_date : Option String)
    (origin_kind : Option String) (location_id : Option String) :
    Except Err (Batch × Store) :=
  match (match quantity with
         | some q => validate_batch_quantity (some ⟨some q.amount, some q.unit⟩)
         | none => .ok ()) with
  | .error e => .error e
  | .ok () =>
    match validate_date_order production_date expiration_date with
    | .error e => .error e
    | .ok () =>
      match item_id with
      | none => .error (.integrity "null value in column item_id")
      | some iid =>
        if (getBatch s batch_id).isSome then
          .error (.integrity "duplicate key on batches (actor_id, id)")
        else
          let b : Batch :=
            { id := batch_id
              item_id := iid
              status := status
              production_date := production_date
              expiration_date := expiration_date
              quantity := quantity.map (fun q => ⟨some q.amount, some q.unit⟩)
              origin_kind := origin_kind
              location_id := location_id }
          .ok (b, { s with batches := s.batches ++ [b] })

/-- `batch_service.update_batch_status`: sets both the status column and the
doc's `status` key on the first matching row; `None` when the batch is
missing. -/
def update_batch_status (s : Store) (batch_id : String) (new_status : String) :
    Option Batch × Store :=
  match getBatch s batch_id with
  | none => (none, s)
  | some b =>
    let b' := { b with status := new_status }
    (some b',
     { s with batches := updateFirstBatch s.batches batch_id
                (fun x => { x with status := new_status }) })

/-- The update payload of `batch_service.update_batch_details`: an outer
`none` models a key absent from `data` (the field is left alone); the fields
the verified claims exercise are modelled. -/
structure BatchUpdate where
  production_date : Option (Option String) := none
  expiration_date : Option (Option String) := none
  status : Option String := none
  quantity : Option (Option QuantityDoc) := none
  origin_kind : Option (Option String) := none
  notes : Option (Option String) := none
deriving Repr, DecidableEq

/-- Apply a `BatchUpdate` to one row: every key present in `data` is stored
verbatim, with no validation. -/
def applyBatchUpdate (data : BatchUpdate) (b : Batch) : Batch :=
  let b := match data.production_date with
           | some v => { b with production_date := v } | none => b
  let b := match data.expiration_date with
           | some v => { b with expiration_date := v } | none => b
  let b := match data.status with
           | some v => { b with status := v } | none => b
  let b := match data.quantity with
           | some v => { b with quantity := v } | none => b
  let b := match data.origin_kind with
           | some v => { b with origin_kind := v } | none => b
  b

/-- `batch_service.update_batch_details`: writes the supplied fields to the
first matching row (no quantity or date validation); `None` when the batch is
missing. -/
def update_batch_details (s : Store) (batch_id : String) (data : BatchUpdate) :
    Option Batch × Store :=
  match getBatch s batch_id with
  | none => (none, s)
  | some b =>
    let b' := applyBatchUpdate data b
    (some b',
     { s with batches := updateFirstBatch s.batches batch_id
                (applyBatchUpdate data) })

end VeriBatch

namespace VeriBatch

/-! ## `app/services/event_service.py` -/

/-- Insert an event row; the unique index `(actor_id, id)` on events makes a
duplicate id fail at commit. -/
def insertEvent (s : Store) (ev : EventDoc) : Except Err EventDoc × Store :=
  if (getEvent s ev.id).isSome then
    (.error (.integrity "duplicate key on events (actor_id, id)"), s)
  else
    (.ok ev, { s with events := s.events ++ [ev] })

/-- `timestamp.split("T")[0] if "T" in timestamp else timestamp`. -/
def dateOfTimestamp (timestamp : String) : String :=
  (timestamp.splitOn "T").headD timestamp

/-- The input-deduction step of `record_processing_event` for one entry:
when the entry carries a truthy `batch_id` and a truthy `amount` dict, and
the batch exists with a truthy tracked quantity whose unit matches the used
unit (which defaults to the batch unit), the batch's amount is set to
`max 0 (current - used)` and its status to `depleted` when that is `≤ 0`. -/
def deductOne (s : Store) (input_data : InputRef) : Store :=
  match input_data.batch_id, input_data.amount with
  | some batch_id, some used_qty =>
    if batch_id = "" then s
    else if ¬ qdTruthy used_qty then s
    else
      match getBatch s batch_id with
      | none => s
      | some b =>
        match b.quantity with
        | none => s
        | some current_qty =>
          if ¬ qdTruthy current_qty then s
          else
            let current_unit := current_qty.unit
            let used_unit : Option String :=
              match used_qty.unit with
              | some u => some u
              | none => current_unit
            if current_unit = used_unit then
              let new_amount :=
                max 0 (current_qty.amount.getD 0 - used_qty.amount.getD 0)
              let s' := (update_batch_details s batch_id
                { quantity := some (some ⟨some new_amount, current_unit⟩) }).2
              if new_amount ≤ 0 then
                (update_batch_status s' batch_id "depleted").2
              else s'
            else s
  | _, _ => s

/-- The input-deduction loop of `record_processing_event`. -/
def deductInputs (s : Store) (inputs : List InputRef) : Store :=
  inputs.foldl deductOne s

/-- The output-creation loop of `record_processing_event`: an output with a
truthy `batch_id` that does not already exist is created with
`origin_kind="transformed"`, `status="active"` and the date of the event's
timestamp; a truthy `amount` dict must carry both keys (`KeyError`
otherwise), a missing or falsy one yields an untracked batch.  Errors keep
the store mutated so far. -/
def createProcessingOutputs (s : Store) (timestamp : String)
    (location_id : Option String) :
    List OutputSpec → Except Err Unit × Store
  | [] => (.ok (), s)
  | output :: rest =>
    match output.batch_id with
    | none => createProcessingOutputs s timestamp location_id rest
    | some batch_id =>
      if batch_id = "" then createProcessingOutputs s timestamp location_id rest
      else if (getBatch s batch_id).isSome then
        createProcessingOutputs s timestamp location_id rest
      else
        let quantity := output.amount
        let quantity_obj : Except Err (Option Quantity) :=
          if qdOptTruthy quantity then
            match quantity with
            | some q =>
              match q.amount with
              | none => .error (.keyErr "amount")
              | some a =>
                match q.unit with
                | none => .error (.keyErr "unit")
                | some u => .ok (some ⟨a, u⟩)
            | none => .ok none
          else .ok none
        match quantity_obj with
        | .error e => (.error e, s)
        | .ok qobj =>
          match create_batch s batch_id (some (output.item_id.getD "unknown"))
              qobj "active" (some (dateOfTimestamp timestamp)) none
              (some "transformed") location_id with
          | .error e => (.error e, s)
          | .ok (_, s') => createProcessingOutputs s' timestamp location_id rest

/-- `event_service.record_processing_event`: validates the inputs, deducts
the used quantities, creates the missing output batches, then persists the
`processing` event. -/
def record_processing_event (s : Store) (event_id : String)
    (process_id : Option String) (inputs : List InputRef)
    (outputs : List OutputSpec) (location_id : Option String)
    (notes : Option String) (timestamp : String) :
    Except Err EventDoc × Store :=
  match validate_production_inputs s inputs with
  | .error e => (.error e, s)
  | .ok () =>
    let s1 := deductInputs s inputs
    match createProcessingOutputs s1 timestamp location_id outputs with
    | (.error e, s2) => (.error e, s2)
    | (.ok (), s2) =>
      insertEvent s2
        { id := event_id
          event_type := "processing"
          timestamp := timestamp
          inputs := inputs
          outputs := outputs
          notes := notes
          location_id := location_id
          process_id := process_id }

/-- Python `location_id or source.jsonb_doc.get("location_id")`:
falsy (`None` / `""`) falls through to the source's location. -/
def pyOrStr (a b : Option String) : Option String :=
  if sTruthy a then a else b

/-- The output-creation loop of `split_batch`: every output with a truthy
`batch_id` is created with the source's `item_id` and `production_date`,
`origin_kind="split"`, amount defaulting to `0` and unit defaulting to the
source's unit.  Errors keep the store mutated so far. -/
def createSplitOutputs (s : Store) (source_batch : Batch)
    (location_id : Option String) :
    List OutputSpec → Except Err Unit × Store
  | [] => (.ok (), s)
  | output :: rest =>
    match output.batch_id with
    | none => createSplitOutputs s source_batch location_id rest
    | some batch_id =>
      if batch_id = "" then createSplitOutputs s source_batch location_id rest
      else
        let amount := output.amount.getD ⟨none, none⟩
        let quantity_obj : Quantity :=
          ⟨amount.amount.getD 0,
           amount.unit.getD
             (((source_batch.quantity.getD ⟨none, none⟩).unit).getD "unit")⟩
        match create_batch s batch_id (some source_batch.item_id)
            (some quantity_obj) "active" source_batch.production_date none
            (some "split") (pyOrStr location_id source_batch.location_id) with
        | .error e => (.error e, s)
        | .ok (_, s') => createSplitOutputs s' source_batch location_id rest

/-- `event_service.split_batch`: validates the split, creates the output
batches, marks the source `depleted` unconditionally, then persists the
`split` event whose single input carries the source's full recorded
quantity. -/
def split_batch (s : Store) (event_id : String) (source_batch_id : String)
    (output_batches : List OutputSpec) (location_id : Option String)
    (notes : Option String) (timestamp : String) :
    Except Err EventDoc × Store :=
  match validate_split_quantities s source_batch_id output_batches with
  | .error e => (.error e, s)
  | .ok () =>
    match getBatch s source_batch_id with
    | none => (.error (.valueErr "Source batch not found"), s)
    | some source_batch =>
      match createSplitOutputs s source_batch location_id output_batches with
      | (.error e, s1) => (.error e, s1)
      | (.ok (), s1) =>
        let s2 := (update_batch_status s1 source_batch_id "depleted").2
        insertEvent s2
          { id := event_id
            event_type := "split"
            timestamp := timestamp
            inputs := [⟨some source_batch_id, source_batch.quantity⟩]
            outputs := output_batches
            notes := notes
            location_id := location_id
            process_id := none }

/-- The source-collection loop of `merge_batches`: every source must exist
(`ValueError` otherwise) and all must share one item id — the accumulator is
only (re)assigned while falsy, mirroring `if not item_id`. -/
def collectMergeSources (s : Store) :
    List String → List Batch → Option String →
    Except Err (List Batch × Option String)
  | [], acc, item_id => .ok (acc, item_id)
  | batch_id :: rest, acc, item_id =>
    match getBatch s batch_id with
    | none => .error (.valueErr "Source batch not found")
    | some b =>
      if ¬ sTruthy item_id then
        collectMergeSources s rest (acc ++ [b]) (some b.item_id)
      else if item_id ≠ some b.item_id then
        .error (.valueErr "Cannot merge batches of different items")
      else collectMergeSources s rest (acc ++ [b]) item_id

/-- `event_service.merge_batches`: validates the merge, collects the sources
(shared item id), creates the output batch (`origin_kind="merged"`), marks
every source `depleted`, then persists the `merge` event whose inputs carry
each source's full recorded quantity. -/
def merge_batches (s : Store) (event_id : String)
    (source_batch_ids : List String) (output_batch_id : String)
    (output_quantity : QuantityDoc) (location_id : Option String)
    (notes : Option String) (timestamp : String) :
    Except Err EventDoc × Store :=
  match validate_merge_quantities s source_batch_ids output_quantity with
  | .error e => (.error e, s)
  | .ok () =>
    match collectMergeSources s source_batch_ids [] none with
    | .error e => (.error e, s)
    | .ok (source_batches, item_id) =>
      let inputs : List InputRef :=
        source_batches.map (fun b => ⟨some b.id, b.quantity⟩)
      let quantity_obj : Quantity :=
        ⟨output_quantity.amount.getD 0, output_quantity.unit.getD "unit"⟩
      match create_batch s output_batch_id item_id (some quantity_obj)
          "active" (some (dateOfTimestamp timestamp)) none (some "merged")
          location_id with
      | .error e => (.error e, s)
      | .ok (_, s1) =>
        let s2 := source_batch_ids.foldl
          (fun t bid => (update_batch_status t bid "depleted").2) s1
        insertEvent s2
          { id := event_id
            event_type := "merge"
            timestamp := timestamp
            inputs := inputs
            outputs := [⟨some output_batch_id, none, some output_quantity⟩]
            notes := notes
            location_id := location_id
            process_id := none }

/-- The update payload of `event_service.update_event`, restricted to the
fields the verified claims exercise; the source applies every key present in
`data` to the stored doc verbatim (`doc[key] = value`). -/
structure EventUpdate where
  timestamp : Option String := none
  notes : Option String := none
  inputs : Option (List InputRef) := none
  outputs : Option (List OutputSpec) := none
deriving Repr, DecidableEq

/-- Apply an `EventUpdate` to a stored event doc. -/
def applyEventUpdate (data : EventUpdate) (e : EventDoc) : EventDoc :=
  let e := match data.timestamp with
           | some v => { e with timestamp := v } | none => e
  let e := match data.notes with
           | some v => { e with notes := some v } | none => e
  let e := match data.inputs with
           | some v => { e with inputs := v } | none => e
  let e := match data.outputs with
           | some v => { e with outputs := v } | none => e
  e

/-- `event_service.update_event`: writes every supplied field of `data` to
the stored doc of the first matching event, with no restriction on which
fields may change; `None` when the event is missing. -/
def update_event (s : Store) (event_id : String) (data : EventUpdate) :
    Option EventDoc × Store :=
  match getEvent s event_id with
  | none => (none, s)
  | some e =>
    let e' := applyEventUpdate data e
    let events' := s.events.map
      (fun x => if x.id = event_id then applyEventUpdate data x else x)
    (some e', { s with events := events' })

/-- Modelled from the spec: `event_service.dispose_batch` is invoked by
`dispose_batch_operation` in `src/backend/app/api/operations.py` but its
definition is absent from `src/backend/app/services/event_service.py` (only
a stray trailing commit block remains there).  Following spec §4.3:
1. the batch must exist (`ValueError` otherwise); 2. its status is set to
`"disposed"`; 3. an Event with `event_type="disposal"` is persisted whose
inputs are `[{batch_id, amount: the batch's recorded quantity}]` and whose
notes are `"Reason: {reason}. {notes}"`. -/
def dispose_batch (s : Store) (event_id : String) (batch_id : String)
    (reason : String) (location_id : Option String) (notes : Option String)
    (timestamp : String) : Except Err EventDoc × Store :=
  match getBatch s batch_id with
  | none => (.error (.valueErr "Batch not found"), s)
  | some b =>
    let s1 := (update_batch_status s batch_id "disposed").2
    let ev : EventDoc :=
      { id := event_id
        event_type := "disposal"
        timestamp := timestamp
        inputs := [⟨some batch_id, b.quantity⟩]
        outputs := []
        notes := some ("Reason: " ++ reason ++ ". " ++ notes.getD "")
        location_id := location_id
        process_id := none }
    (.ok ev, { s1 with events := s1.events ++ [ev] })

end VeriBatch

namespace VeriBatch

/-! ## `app/services/traceability_service.py` -/

/-- An entry of the `upstream` / `downstream` lists of
`get_batch_traceability`. -/
structure TraceEntry where
  batch_id : String
  item_id : String
  amount : Option QuantityDoc
  status : String
  event_id : String
deriving Repr, DecidableEq

/-- The result of `get_batch_traceability`. -/
structure TraceResult where
  batch_id : String
  upstream : List TraceEntry
  downstream : List TraceEntry
  events : List EventDoc
deriving Repr, DecidableEq

/-- The inner input scan of the upstream direction: each truthy input batch
id not already collected is looked up; a missing batch record is silently
skipped, a found one is appended with the event's id. -/
def scanEntryRefs (s : Store) (event_id : String) (acc : List TraceEntry) :
    List InputRef → List TraceEntry
  | [] => acc
  | inp :: rest =>
    match inp.batch_id with
    | none => scanEntryRefs s event_id acc rest
    | some ref_id =>
      if ref_id = "" then scanEntryRefs s event_id acc rest
      else if (acc.map (fun b => b.batch_id)).contains ref_id then
        scanEntryRefs s event_id acc rest
      else
        match getBatch s ref_id with
        | none => scanEntryRefs s event_id acc rest
        | some b =>
          scanEntryRefs s event_id
            (acc ++ [⟨b.id, b.item_id, inp.amount, b.status, event_id⟩]) rest

/-- The per-event output scan of the upstream direction: for every output
entry matching the traced batch, the event is collected (possibly several
times; deduplicated later) and its inputs are scanned. -/
def upstreamScanOutputs (s : Store) (batch_id : String) (ev : EventDoc)
    (acc : List TraceEntry × List EventDoc) :
    List OutputSpec → List TraceEntry × List EventDoc
  | [] => acc
  | output :: rest =>
    if output.batch_id = some batch_id then
      upstreamScanOutputs s batch_id ev
        (scanEntryRefs s ev.id acc.1 ev.inputs, acc.2 ++ [ev]) rest
    else upstreamScanOutputs s batch_id ev acc rest

/-- The upstream event loop: scan every event's outputs for the traced
batch. -/
def upstreamScan (s : Store) (batch_id : String)
    (acc : List TraceEntry × List EventDoc) :
    List EventDoc → List TraceEntry × List EventDoc
  | [] => acc
  | ev :: rest =>
    upstreamScan s batch_id (upstreamScanOutputs s batch_id ev acc ev.outputs)
      rest

/-- The inner output scan of the downstream direction (symmetric to
`scanEntryRefs`, collecting output batches). -/
def scanEntryRefsOut (s : Store) (event_id : String) (acc : List TraceEntry) :
    List OutputSpec → List TraceEntry
  | [] => acc
  | output :: rest =>
    match output.batch_id with
    | none => scanEntryRefsOut s event_id acc rest
    | some ref_id =>
      if ref_id = "" then scanEntryRefsOut s event_id acc rest
      else if (acc.map (fun b => b.batch_id)).contains ref_id then
        scanEntryRefsOut s event_id acc rest
      else
        match getBatch s ref_id with
        | none => scanEntryRefsOut s event_id acc rest
        | some b =>
          scanEntryRefsOut s event_id
            (acc ++ [⟨b.id, b.item_id, output.amount, b.status, event_id⟩]) rest

/-- The per-event input scan of the downstream direction. -/
def downstreamScanInputs (s : Store) (batch_id : String) (ev : EventDoc)
    (acc : List TraceEntry × List EventDoc) :
    List InputRef → List TraceEntry × List EventDoc
  | [] => acc
  | inp :: rest =>
    if inp.batch_id = some batch_id then
      downstreamScanInputs s batch_id ev
        (scanEntryRefsOut s ev.id acc.1 ev.outputs, acc.2 ++ [ev]) rest
    else downstreamScanInputs s batch_id ev acc rest

/-- The downstream event loop. -/
def downstreamScan (s : Store) (batch_id : String)
    (acc : List TraceEntry × List EventDoc) :
    List EventDoc → List TraceEntry × List EventDoc
  | [] => acc
  | ev :: rest =>
    downstreamScan s batch_id
      (downstreamScanInputs s batch_id ev acc ev.inputs) rest

/-- The final dedup-by-id pass over the collected events (keep first). -/
def dedupEventsById (seen : List String) : List EventDoc → List EventDoc
  | [] => []
  | e :: rest =>
    if seen.contains e.id then dedupEventsById seen rest
    else e :: dedupEventsById (seen ++ [e.id]) rest

/-- `traceability_service.get_batch_traceability`: collects the deduplicated
upstream input batches of events producing `batch_id`, the downstream output
batches of events consuming it, and the triggering events (deduplicated by
id, downstream ones filtered against the upstream ids collected first). -/
def get_batch_traceability (s : Store) (batch_id : String)
    (direction : String) : TraceResult :=
  let up :=
    if direction = "upstream" ∨ direction = "both" then
      upstreamScan s batch_id ([], []) s.events
    else ([], [])
  let down :=
    if direction = "downstream" ∨ direction = "both" then
      downstreamScan s batch_id ([], []) s.events
    else ([], [])
  let events1 := up.2
  let existing_event_ids := events1.map (fun e => e.id)
  let events2 :=
    events1 ++ down.2.filter (fun e => ¬ existing_event_ids.contains e.id)
  { batch_id := batch_id
    upstream := up.1
    downstream := down.1
    events := dedupEventsById [] events2 }

/-- A node of the recursive traceability tree of
`get_full_traceability_graph`: a `{batch_id, visited: true}` leaf, an
`{error: "not found"}` leaf, or a resolved batch node whose `inputs` list
pairs each recursively-resolved input subtree with the input's amount and
the producing event's id and type. -/
inductive TraceTree where
  | visited (batch_id : String)
  | notFound (batch_id : String)
  | node (batch_id : String) (item_id : String) (status : String)
      (production_date : Option String) (quantity : Option QuantityDoc)
      (depth : ℕ)
      (inputs : List (TraceTree × Option QuantityDoc × String × String))
deriving Repr

/-- The recursive-call type threaded through the loops of `build_tree`:
resolve one batch id (at the child depth) against the shared visited set. -/
abbrev TreeRec := String → List String → Option (TraceTree × List String)

/-- The input loop of `build_tree`: recurse (via `recf`, one level deeper)
into every truthy input batch id, threading the shared visited set. -/
def buildTreeInputs (recf : TreeRec) (ev : EventDoc) :
    List InputRef → List String →
    Option (List (TraceTree × Option QuantityDoc × String × String) ×
            List String)
  | [], visited => some ([], visited)
  | inp :: rest, visited =>
    match inp.batch_id with
    | none => buildTreeInputs recf ev rest visited
    | some input_batch_id =>
      if input_batch_id = "" then buildTreeInputs recf ev rest visited
      else
        match recf input_batch_id visited with
        | none => none
        | some (t, v1) =>
          match buildTreeInputs recf ev rest v1 with
          | none => none
          | some (cs, v2) =>
            some ((t, inp.amount, ev.id, ev.event_type) :: cs, v2)

/-- The event loop of `build_tree`: every event with an output matching the
current batch contributes the recursive resolution of its inputs. -/
def buildTreeEvents (recf : TreeRec) (batch_id : String) :
    List EventDoc → List String →
    Option (List (TraceTree × Option QuantityDoc × String × String) ×
            List String)
  | [], visited => some ([], visited)
  | ev :: rest, visited =>
    if ev.outputs.any (fun o => o.batch_id = some batch_id) then
      match buildTreeInputs recf ev ev.inputs visited with
      | none => none
      | some (cs1, v1) =>
        match buildTreeEvents recf batch_id rest v1 with
        | none => none
        | some (cs2, v2) => some (cs1 ++ cs2, v2)
    else buildTreeEvents recf batch_id rest visited

/-- `build_tree` of `get_full_traceability_graph`, with an explicit fuel
argument standing in for the unbounded Python call stack: a revisited batch
id or a depth beyond `max_depth` short-circuits to a `visited` leaf before
any fuel is consumed, so sufficient fuel (`max_depth + 1`) never runs out
(`none` = fuel exhausted). -/
def buildTreeFuel (s : Store) (max_depth : ℕ) :
    ℕ → String → ℕ → List String → Option (TraceTree × List String)
  | fuel, batch_id, depth, visited =>
    if depth > max_depth ∨ visited.contains batch_id then
      some (.visited batch_id, visited)
    else
      match fuel with
      | 0 => none
      | f + 1 =>
        let vis := visited ++ [batch_id]
        match getBatch s batch_id with
        | none => some (.notFound batch_id, vis)
        | some b =>
          match buildTreeEvents
              (fun b' v' => buildTreeFuel s max_depth f b' (depth + 1) v')
              batch_id s.events vis with
          | none => none
          | some (children, vis') =>
            some (.node batch_id b.item_id b.status b.production_date
                    b.quantity depth children, vis')

/-- `traceability_service.get_full_traceability_graph` (default
`max_depth = 10`): `build_tree(batch_id, 0)` with an empty visited set, run
with enough fuel for the depth guard. -/
def get_full_traceability_graph (s : Store) (batch_id : String)
    (max_depth : ℕ := 10) : Option TraceTree :=
  (buildTreeFuel s max_depth (max_depth + 1) batch_id 0 []).map
    (fun r => r.1)

end VeriBatch

namespace VeriBatch

/-! ## `ooj_client/models.py` and `ooj_client/entities.py`

The canonical document form.  A JSON document of an entity type is modelled
as a record with one `Option` field per key the serializer reads or writes
(a missing key is `none`); dictionaries that are passed through verbatim
(`contacts`, `address`, `external_ids`, a `Process`'s raw `inputs` /
`outputs`) are uninterpreted string-keyed association lists. -/

/-- An uninterpreted string-valued JSON object (passed through verbatim). -/
abbrev RawObj := List (String × String)

/-- An uninterpreted number-valued JSON object (`coordinates`). -/
abbrev RawNumObj := List (String × ℚ)

namespace entities

/-- `entities.SCHEMA_VERSION`. -/
def SCHEMA_VERSION : String := "open-origin-json/0.4"

/-- Character-list prefix test. -/
def charsPrefix : List Char → List Char → Bool
  | [], _ => true
  | _ :: _, [] => false
  | c :: cs, d :: ds => c == d && charsPrefix cs ds

/-- Python `str.startswith`, modelled on the character data of the strings
(Lean's builtin `String.startsWith` is byte-position based and does not
evaluate inside proofs). -/
def strStartsWith (s pre : String) : Bool := charsPrefix pre.data s.data

/-- `if self.x:` for an optional-string field of `to_dict`: the key is
written only when the value is truthy. -/
def keepTruthy (o : Option String) : Option String :=
  if sTruthy o then o else none

/-- `if self.x:` for a dict/list-valued field of `to_dict`: the key is
written only when the value is non-empty (this is also `ExternalIds.__bool__`). -/
def keepNonempty {α : Type} (o : Option (List α)) : Option (List α) :=
  match o with
  | none => none
  | some l => if l.isEmpty then none else some l

/-- `if self.x:` for a list-valued dataclass field: written when non-empty. -/
def listField {α : Type} (l : List α) : Option (List α) :=
  if l.isEmpty then none else some l

/-- Element-wise parsing of a JSON list (`[X.from_dict(i) for i in ...]`):
fails when any element fails. -/
def mapOpt {α β : Type} (f : α → Option β) : List α → Option (List β)
  | [] => some []
  | a :: rest =>
    match f a with
    | none => none
    | some b => (mapOpt f rest).map (fun bs => b :: bs)

/-- `models.Quantity.from_dict`: both keys are required (`KeyError`
otherwise). -/
def Quantity.from_dict (data : QuantityDoc) : Option Quantity :=
  match data.amount, data.unit with
  | some a, some u => some ⟨a, u⟩
  | _, _ => none

/-- `models.Quantity.to_dict`. -/
def Quantity.to_dict (q : Quantity) : QuantityDoc :=
  ⟨some q.amount, some q.unit⟩

/-- `models.Attachment`. -/
structure Attachment where
  type : String
  url : String
  description : Option String
  mime_type : Option String
  created_at : Option String
  hash : Option String
deriving Repr, DecidableEq

/-- `Attachment.VALID_TYPES` together with the `x-` escape of
`__post_init__`. -/
def Attachment.validType (t : String) : Bool :=
  t ∈ ["photo", "document", "certificate", "test_result", "label", "video",
       "other"] || strStartsWith t "x-"

/-- The document form of an attachment. -/
structure AttachmentDoc where
  type : Option String
  url : Option String
  description : Option String
  mime_type : Option String
  created_at : Option String
  hash : Option String
deriving Repr, DecidableEq

/-- `models.Attachment.from_dict` (plus the `__post_init__` type check):
`type` and `url` are required. -/
def Attachment.from_dict (data : AttachmentDoc) : Option Attachment :=
  match data.type, data.url with
  | some t, some u =>
    if Attachment.validType t then
      some ⟨t, u, data.description, data.mime_type, data.created_at,
            data.hash⟩
    else none
  | _, _ => none

/-- `models.Attachment.to_dict`. -/
def Attachment.to_dict (a : Attachment) : AttachmentDoc :=
  ⟨some a.type, some a.url, keepTruthy a.description, keepTruthy a.mime_type,
   keepTruthy a.created_at, keepTruthy a.hash⟩

/-- `models.BatchInput`. -/
structure BatchInput where
  batch_id : String
  amount : Quantity
  actor_id : Option String
deriving Repr, DecidableEq

/-- The document form of a `BatchInput` / `BatchOutput` entry. -/
structure BatchInputDoc where
  batch_id : Option String
  amount : Option QuantityDoc
  actor_id : Option String
deriving Repr, DecidableEq

/-- `models.BatchInput.from_dict`: `batch_id` and a full `amount` are
required. -/
def BatchInput.from_dict (data : BatchInputDoc) : Option BatchInput :=
  match data.batch_id, data.amount with
  | some bid, some q =>
    (Quantity.from_dict q).map (fun qq => ⟨bid, qq, data.actor_id⟩)
  | _, _ => none

/-- `models.BatchInput.to_dict`. -/
def BatchInput.to_dict (i : BatchInput) : BatchInputDoc :=
  ⟨some i.batch_id, some (Quantity.to_dict i.amount), keepTruthy i.actor_id⟩

/-- `models.BatchOutput` (structurally identical to `BatchInput`). -/
structure BatchOutput where
  batch_id : String
  amount : Quantity
  actor_id : Option String
deriving Repr, DecidableEq

/-- `models.BatchOutput.from_dict`. -/
def BatchOutput.from_dict (data : BatchInputDoc) : Option BatchOutput :=
  match data.batch_id, data.amount with
  | some bid, some q =>
    (Quantity.from_dict q).map (fun qq => ⟨bid, qq, data.actor_id⟩)
  | _, _ => none

/-- `models.BatchOutput.to_dict`. -/
def BatchOutput.to_dict (o : BatchOutput) : BatchInputDoc :=
  ⟨some o.batch_id, some (Quantity.to_dict o.amount), keepTruthy o.actor_id⟩

/-- `entities.Actor`. -/
structure Actor where
  id : String
  name : String
  kind : Option String
  contacts : Option RawObj
  address : Option RawObj
  certifications : List String
  external_ids : Option RawObj
  created_at : Option String
  updated_at : Option String
deriving Repr, DecidableEq

/-- The document form of an `Actor`. -/
structure ActorDoc where
  schema : Option String
  type : Option String
  id : Option String
  name : Option String
  kind : Option String
  contacts : Option RawObj
  address : Option RawObj
  certifications : Option (List String)
  external_ids : Option RawObj
  created_at : Option String
  updated_at : Option String
deriving Repr, DecidableEq

/-- `entities.Actor.from_dict`: `id` and `name` are required;
`certifications` defaults to `[]`; `external_ids` is copied when the key is
present. -/
def Actor.from_dict (data : ActorDoc) : Option Actor :=
  match data.id, data.name with
  | some i, some n =>
    some ⟨i, n, data.kind, data.contacts, data.address,
          data.certifications.getD [], data.external_ids, data.created_at,
          data.updated_at⟩
  | _, _ => none

/-- `entities.Actor.to_dict`. -/
def Actor.to_dict (a : Actor) : ActorDoc :=
  { schema := some SCHEMA_VERSION
    type := some "actor"
    id := some a.id
    name := some a.name
    kind := keepTruthy a.kind
    contacts := keepNonempty a.contacts
    address := keepNonempty a.address
    certifications := listField a.certifications
    external_ids := keepNonempty a.external_ids
    created_at := keepTruthy a.created_at
    updated_at := keepTruthy a.updated_at }

/-- `entities.Location`. -/
structure Location where
  id : String
  actor_id : String
  name : String
  kind : Option String
  coordinates : Option RawNumObj
  address : Option RawObj
  external_ids : Option RawObj
  created_at : Option String
  updated_at : Option String
deriving Repr, DecidableEq

/-- The document form of a `Location`. -/
structure LocationDoc where
  schema : Option String
  type : Option String
  id : Option String
  actor_id : Option String
  name : Option String
  kind : Option String
  coordinates : Option RawNumObj
  address : Option RawObj
  external_ids : Option RawObj
  created_at : Option String
  updated_at : Option String
deriving Repr, DecidableEq

/-- `entities.Location.from_dict`: `id`, `actor_id` and `name` are
required. -/
def Location.from_dict (data : LocationDoc) : Option Location :=
  match data.id, data.actor_id, data.name with
  | some i, some a, some n =>
    some ⟨i, a, n, data.kind, data.coordinates, data.address,
          data.external_ids, data.created_at, data.updated_at⟩
  | _, _, _ => none

/-- `entities.Location.to_dict`. -/
def Location.to_dict (l : Location) : LocationDoc :=
  { schema := some SCHEMA_VERSION
    type := some "location"
    id := some l.id
    actor_id := some l.actor_id
    name := some l.name
    kind := keepTruthy l.kind
    coordinates := keepNonempty l.coordinates
    address := keepNonempty l.address
    external_ids := keepNonempty l.external_ids
    created_at := keepTruthy l.created_at
    updated_at := keepTruthy l.updated_at }

/-- `entities.Item`. -/
structure Item where
  id : String
  actor_id : String
  name : String
  category : Option String
  unit : Option String
  description : Option String
  external_ids : Option RawObj
  created_at : Option String
  updated_at : Option String
deriving Repr, DecidableEq

/-- The document form of an `Item`. -/
structure ItemDoc where
  schema : Option String
  type : Option String
  id : Option String
  actor_id : Option String
  name : Option String
  category : Option String
  unit : Option String
  description : Option String
  external_ids : Option RawObj
  created_at : Option String
  updated_at : Option String
deriving Repr, DecidableEq

/-- `entities.Item.from_dict`: `id`, `actor_id` and `name` are required. -/
def Item.from_dict (data : ItemDoc) : Option Item :=
  match data.id, data.actor_id, data.name with
  | some i, some a, some n =>
    some ⟨i, a, n, data.category, data.unit, data.description,
          data.external_ids, data.created_at, data.updated_at⟩
  | _, _, _ => none

/-- `entities.Item.to_dict`. -/
def Item.to_dict (it : Item) : ItemDoc :=
  { schema := some SCHEMA_VERSION
    type := some "item"
    id := some it.id
    actor_id := some it.actor_id
    name := some it.name
    category := keepTruthy it.category
    unit := keepTruthy it.unit
    description := keepTruthy it.description
    external_ids := keepNonempty it.external_ids
    created_at := keepTruthy it.created_at
    updated_at := keepTruthy it.updated_at }

end entities

end VeriBatch

namespace VeriBatch

namespace entities

/-- `entities.Batch.VALID_STATUSES`. -/
def validStatus (st : String) : Bool :=
  st ∈ ["active", "depleted", "quarantined", "recalled", "expired",
        "disposed"]

/-- `entities.Batch` (the OOJ dataclass, distinct from the stored row). -/
structure Batch where
  id : String
  actor_id : String
  item_id : String
  location_id : Option String
  quantity : Option Quantity
  status : String
  origin_kind : Option String
  production_date : Option String
  expiration_date : Option String
  best_before_date : Option String
  external_ids : Option RawObj
  attachments : List Attachment
  created_at : Option String
  updated_at : Option String
deriving Repr, DecidableEq

/-- The document form of a `Batch`. -/
structure BatchDoc where
  schema : Option String
  type : Option String
  id : Option String
  actor_id : Option String
  item_id : Option String
  location_id : Option String
  quantity : Option QuantityDoc
  status : Option String
  origin_kind : Option String
  production_date : Option String
  expiration_date : Option String
  best_before_date : Option String
  external_ids : Option RawObj
  attachments : Option (List AttachmentDoc)
  created_at : Option String
  updated_at : Option String
deriving Repr, DecidableEq

/-- `entities.Batch.from_dict` (plus the `__post_init__` status check):
`id`, `actor_id` and `item_id` are required; a present `quantity` must carry
both keys; `status` defaults to `"active"` and must be valid;
`attachments` defaults to `[]` and every entry must parse. -/
def Batch.from_dict (data : BatchDoc) : Option entities.Batch :=
  match data.id, data.actor_id, data.item_id with
  | some i, some a, some it =>
    let st := data.status.getD "active"
    if validStatus st then
      match data.quantity with
      | some q =>
        match Quantity.from_dict q with
        | none => none
        | some qq =>
          (mapOpt Attachment.from_dict (data.attachments.getD [])).map
            (fun ats =>
              ⟨i, a, it, data.location_id, some qq, st, data.origin_kind,
               data.production_date, data.expiration_date,
               data.best_before_date, data.external_ids, ats,
               data.created_at, data.updated_at⟩)
      | none =>
        (mapOpt Attachment.from_dict (data.attachments.getD [])).map
          (fun ats =>
            ⟨i, a, it, data.location_id, none, st, data.origin_kind,
             data.production_date, data.expiration_date,
             data.best_before_date, data.external_ids, ats,
             data.created_at, data.updated_at⟩)
    else none
  | _, _, _ => none

/-- `entities.Batch.to_dict`: `status` is written only when it differs from
`"active"`; quantity when present; truthy optional strings; non-empty
dict/list fields. -/
def Batch.to_dict (b : entities.Batch) : BatchDoc :=
  { schema := some SCHEMA_VERSION
    type := some "batch"
    id := some b.id
    actor_id := some b.actor_id
    item_id := some b.item_id
    location_id := keepTruthy b.location_id
    quantity := b.quantity.map Quantity.to_dict
    status := if b.status ≠ "active" then some b.status else none
    origin_kind := keepTruthy b.origin_kind
    production_date := keepTruthy b.production_date
    expiration_date := keepTruthy b.expiration_date
    best_before_date := keepTruthy b.best_before_date
    external_ids := keepNonempty b.external_ids
    attachments := listField (b.attachments.map Attachment.to_dict)
    created_at := keepTruthy b.created_at
    updated_at := keepTruthy b.updated_at }

/-- `entities.Process`. -/
structure Process where
  id : String
  actor_id : String
  name : String
  kind : Option String
  version : Option String
  steps : List String
  inputs : Option (List RawObj)
  outputs : Option (List RawObj)
  attachments : List Attachment
  created_at : Option String
  updated_at : Option String
deriving Repr, DecidableEq

/-- The document form of a `Process` (its raw `inputs` / `outputs` dicts are
passed through verbatim). -/
structure ProcessDoc where
  schema : Option String
  type : Option String
  id : Option String
  actor_id : Option String
  name : Option String
  kind : Option String
  version : Option String
  steps : Option (List String)
  inputs : Option (List RawObj)
  outputs : Option (List RawObj)
  attachments : Option (List AttachmentDoc)
  created_at : Option String
  updated_at : Option String
deriving Repr, DecidableEq

/-- `entities.Process.from_dict`: `id`, `actor_id` and `name` are required;
`steps` and `attachments` default to `[]`. -/
def Process.from_dict (data : ProcessDoc) : Option Process :=
  match data.id, data.actor_id, data.name with
  | some i, some a, some n =>
    (mapOpt Attachment.from_dict (data.attachments.getD [])).map
      (fun ats =>
        ⟨i, a, n, data.kind, data.version, data.steps.getD [], data.inputs,
         data.outputs, ats, data.created_at, data.updated_at⟩)
  | _, _, _ => none

/-- `entities.Process.to_dict`. -/
def Process.to_dict (p : Process) : ProcessDoc :=
  { schema := some SCHEMA_VERSION
    type := some "process"
    id := some p.id
    actor_id := some p.actor_id
    name := some p.name
    kind := keepTruthy p.kind
    version := keepTruthy p.version
    steps := listField p.steps
    inputs := keepNonempty p.inputs
    outputs := keepNonempty p.outputs
    attachments := listField (p.attachments.map Attachment.to_dict)
    created_at := keepTruthy p.created_at
    updated_at := keepTruthy p.updated_at }

/-- `entities.Event.VALID_EVENT_TYPES` together with the `x-` escape of
`__post_init__`. -/
def validEventType (t : String) : Bool :=
  t ∈ ["harvest", "processing", "packaging", "receiving", "shipping",
       "storage_move", "quality_check", "split", "merge", "disposal"] ||
  strStartsWith t "x-"

/-- `entities.Event` (the OOJ dataclass, distinct from the stored row). -/
structure Event where
  id : String
  actor_id : String
  timestamp : String
  event_type : String
  location_id : Option String
  process_id : Option String
  inputs : List BatchInput
  outputs : List BatchOutput
  packaging_materials : List BatchInput
  notes : Option String
  performed_by : Option String
  external_ids : Option RawObj
  attachments : List Attachment
  created_at : Option String
  updated_at : Option String
deriving Repr, DecidableEq

/-- The document form of an `Event`. -/
structure EventEntityDoc where
  schema : Option String
  type : Option String
  id : Option String
  actor_id : Option String
  timestamp : Option String
  event_type : Option String
  location_id : Option String
  process_id : Option String
  inputs : Option (List BatchInputDoc)
  outputs : Option (List BatchInputDoc)
  packaging_materials : Option (List BatchInputDoc)
  notes : Option String
  performed_by : Option String
  external_ids : Option RawObj
  attachments : Option (List AttachmentDoc)
  created_at : Option String
  updated_at : Option String
deriving Repr, DecidableEq

/-- `entities.Event.from_dict` (plus the `__post_init__` event-type check):
`id`, `actor_id`, `timestamp` and `event_type` are required; the
`inputs` / `outputs` / `packaging_materials` / `attachments` lists default
to `[]` and every entry must parse. -/
def Event.from_dict (data : EventEntityDoc) : Option Event :=
  match data.id, data.actor_id, data.timestamp, data.event_type with
  | some i, some a, some ts, some et =>
    if validEventType et then
      match mapOpt BatchInput.from_dict (data.inputs.getD []),
            mapOpt BatchOutput.from_dict (data.outputs.getD []),
            mapOpt BatchInput.from_dict (data.packaging_materials.getD []),
            mapOpt Attachment.from_dict (data.attachments.getD []) with
      | some ins, some outs, some pms, some ats =>
        some ⟨i, a, ts, et, data.location_id, data.process_id, ins, outs,
              pms, data.notes, data.performed_by, data.external_ids, ats,
              data.created_at, data.updated_at⟩
      | _, _, _, _ => none
    else none
  | _, _, _, _ => none

/-- `entities.Event.to_dict`. -/
def Event.to_dict (e : Event) : EventEntityDoc :=
  { schema := some SCHEMA_VERSION
    type := some "event"
    id := some e.id
    actor_id := some e.actor_id
    timestamp := some e.timestamp
    event_type := some e.event_type
    location_id := keepTruthy e.location_id
    process_id := keepTruthy e.process_id
    inputs := listField (e.inputs.map BatchInput.to_dict)
    outputs := listField (e.outputs.map BatchOutput.to_dict)
    packaging_materials :=
      listField (e.packaging_materials.map BatchInput.to_dict)
    notes := keepTruthy e.notes
    performed_by := keepTruthy e.performed_by
    external_ids := keepNonempty e.external_ids
    attachments := listField (e.attachments.map Attachment.to_dict)
    created_at := keepTruthy e.created_at
    updated_at := keepTruthy e.updated_at }

end entities

end VeriBatch

namespace VeriBatch

namespace entities

/-! ### `ooj_client/validators.py` — well-formedness of documents -/

/-- The `schema` check of `validators.validate_entity`. -/
def wfSchema : Option String → Bool
  | none => false
  | some sch => strStartsWith sch "open-origin-json/"

/-- Well-formedness of an actor document (`validators._validate_actor`
together with the `schema`/`type` checks of `validate_entity`). -/
def validate_actor_doc (d : ActorDoc) : Bool :=
  wfSchema d.schema && d.type == some "actor" && d.id.isSome && d.name.isSome

/-- Well-formedness of a location document. -/
def validate_location_doc (d : LocationDoc) : Bool :=
  wfSchema d.schema && d.type == some "location" && d.id.isSome &&
  d.actor_id.isSome && d.name.isSome

/-- Well-formedness of an item document. -/
def validate_item_doc (d : ItemDoc) : Bool :=
  wfSchema d.schema && d.type == some "item" && d.id.isSome &&
  d.actor_id.isSome && d.name.isSome

/-- Well-formedness of a batch document (`validators._validate_batch`). -/
def validate_batch_doc (d : BatchDoc) : Bool :=
  wfSchema d.schema && d.type == some "batch" && d.id.isSome &&
  d.actor_id.isSome && d.item_id.isSome &&
  (match d.status with
   | none => true
   | some st => validStatus st) &&
  (match d.quantity with
   | none => true
   | some q => q.amount.isSome && q.unit.isSome)

/-- Well-formedness of a process document. -/
def validate_process_doc (d : ProcessDoc) : Bool :=
  wfSchema d.schema && d.type == some "process" && d.id.isSome &&
  d.actor_id.isSome && d.name.isSome

/-- Well-formedness of an event document (`validators._validate_event`). -/
def validate_event_doc (d : EventEntityDoc) : Bool :=
  wfSchema d.schema && d.type == some "event" && d.id.isSome &&
  d.actor_id.isSome && d.timestamp.isSome &&
  (match d.event_type with
   | none => false
   | some et => validEventType et)

/-! ### Canonical documents

The serializers drop a key whose value is a Python default or falsy value
(`status == "active"`, `""`, `{}`, `[]`), so `to_dict ∘ from_dict` is the
identity only on documents already in this canonical form: the exact
`SCHEMA_VERSION`, present optional strings non-empty, present dicts/lists
non-empty (element-wise canonical), no explicit default `status`. -/

/-- Canonical optional-string key: absent, or present and truthy. -/
def strOkC : Option String → Bool
  | none => true
  | some v => v != ""

/-- Canonical optional dict/list key: absent, or present and non-empty. -/
def objOkC {α : Type} : Option (List α) → Bool
  | none => true
  | some l => !l.isEmpty

/-- Canonical attachment entry: required keys present, a valid `type`,
optional strings truthy. -/
def canonicalAttachmentDoc (a : AttachmentDoc) : Bool :=
  (match a.type with
   | none => false
   | some t => Attachment.validType t) &&
  a.url.isSome && strOkC a.description && strOkC a.mime_type &&
  strOkC a.created_at && strOkC a.hash

/-- Canonical input/output entry: `batch_id` present, `amount` present with
both keys, `actor_id` absent or truthy. -/
def canonicalBatchInputDoc (i : BatchInputDoc) : Bool :=
  i.batch_id.isSome &&
  (match i.amount with
   | none => false
   | some q => q.amount.isSome && q.unit.isSome) &&
  strOkC i.actor_id

/-- Canonical actor document. -/
def canonicalActorDoc (d : ActorDoc) : Bool :=
  d.schema == some SCHEMA_VERSION && d.type == some "actor" &&
  d.id.isSome && d.name.isSome && strOkC d.kind && objOkC d.contacts &&
  objOkC d.address && objOkC d.certifications && objOkC d.external_ids &&
  strOkC d.created_at && strOkC d.updated_at

/-- Canonical location document. -/
def canonicalLocationDoc (d : LocationDoc) : Bool :=
  d.schema == some SCHEMA_VERSION && d.type == some "location" &&
  d.id.isSome && d.actor_id.isSome && d.name.isSome && strOkC d.kind &&
  objOkC d.coordinates && objOkC d.address && objOkC d.external_ids &&
  strOkC d.created_at && strOkC d.updated_at

/-- Canonical item document. -/
def canonicalItemDoc (d : ItemDoc) : Bool :=
  d.schema == some SCHEMA_VERSION && d.type == some "item" &&
  d.id.isSome && d.actor_id.isSome && d.name.isSome && strOkC d.category &&
  strOkC d.unit && strOkC d.description && objOkC d.external_ids &&
  strOkC d.created_at && strOkC d.updated_at

/-- Canonical batch document: in particular, a present `status` key is a
valid status other than the default `"active"`. -/
def canonicalBatchDoc (d : BatchDoc) : Bool :=
  d.schema == some SCHEMA_VERSION && d.type == some "batch" &&
  d.id.isSome && d.actor_id.isSome && d.item_id.isSome &&
  strOkC d.location_id &&
  (match d.quantity with
   | none => true
   | some q => q.amount.isSome && q.unit.isSome) &&
  (match d.status with
   | none => true
   | some st => validStatus st && st != "active") &&
  strOkC d.origin_kind && strOkC d.production_date &&
  strOkC d.expiration_date && strOkC d.best_before_date &&
  objOkC d.external_ids &&
  (match d.attachments with
   | none => true
   | some l => !l.isEmpty && l.all canonicalAttachmentDoc) &&
  strOkC d.created_at && strOkC d.updated_at

/-- Canonical process document. -/
def canonicalProcessDoc (d : ProcessDoc) : Bool :=
  d.schema == some SCHEMA_VERSION && d.type == some "process" &&
  d.id.isSome && d.actor_id.isSome && d.name.isSome && strOkC d.kind &&
  strOkC d.version && objOkC d.steps && objOkC d.inputs &&
  objOkC d.outputs &&
  (match d.attachments with
   | none => true
   | some l => !l.isEmpty && l.all canonicalAttachmentDoc) &&
  strOkC d.created_at && strOkC d.updated_at

/-- Canonical event document. -/
def canonicalEventDoc (d : EventEntityDoc) : Bool :=
  d.schema == some SCHEMA_VERSION && d.type == some "event" &&
  d.id.isSome && d.actor_id.isSome && d.timestamp.isSome &&
  (match d.event_type with
   | none => false
   | some et => validEventType et) &&
  strOkC d.location_id && strOkC d.process_id &&
  (match d.inputs with
   | none => true
   | some l => !l.isEmpty && l.all canonicalBatchInputDoc) &&
  (match d.outputs with
   | none => true
   | some l => !l.isEmpty && l.all canonicalBatchInputDoc) &&
  (match d.packaging_materials with
   | none => true
   | some l => !l.isEmpty && l.all canonicalBatchInputDoc) &&
  strOkC d.notes && strOkC d.performed_by && objOkC d.external_ids &&
  (match d.attachments with
   | none => true
   | some l => !l.isEmpty && l.all canonicalAttachmentDoc) &&
  strOkC d.created_at && strOkC d.updated_at

/-! ### Round-trip helper lemmas -/

/-- A canonically-present optional string survives `keepTruthy`. -/
theorem keepTruthy_eq (o : Option String) (h : strOkC o = true) :
    keepTruthy o = o := by
  cases o with
  | none => rfl
  | some v =>
    simp only [strOkC, bne_iff_ne, ne_eq, decide_eq_true_eq] at h
    simp [keepTruthy, sTruthy, h]

/-- A canonically-present optional list survives `keepNonempty`. -/
theorem keepNonempty_eq {α : Type} (o : Option (List α))
    (h : objOkC o = true) : keepNonempty o = o := by
  cases o with
  | none => rfl
  | some l =>
    simp only [objOkC, Bool.not_eq_true'] at h
    simp [keepNonempty, h]

/-- Defaulting an absent list key to `[]` and re-serializing through
`listField` restores the key. -/
theorem listField_getD {α : Type} (o : Option (List α))
    (h : objOkC o = true) : listField (o.getD []) = o := by
  cases o with
  | none => rfl
  | some l =>
    simp only [objOkC, Bool.not_eq_true'] at h
    simp [listField, h]

/-- Generic element-wise round trip through `mapOpt`. -/
theorem mapOpt_roundtrip {α β : Type} (f : α → Option β) (g : β → α) :
    ∀ l : List α, (∀ a ∈ l, ∃ b, f a = some b ∧ g b = a) →
      ∃ es, mapOpt f l = some es ∧ es.map g = l
  | [], _ => ⟨[], rfl, rfl⟩
  | a :: rest, h => by
    obtain ⟨b, hb, hgb⟩ := h a (by simp)
    obtain ⟨es, hes, hmap⟩ :=
      mapOpt_roundtrip f g rest (fun x hx => h x (by simp [hx]))
    exact ⟨b :: es, by simp [mapOpt, hb, hes], by simp [hmap, hgb]⟩

/-- Generic round trip for an optional, `[]`-defaulted, element-wise
serialized list key. -/
theorem optList_roundtrip {α β : Type} (f : α → Option β) (g : β → α)
    (o : Option (List α)) (hne : objOkC o = true)
    (h : ∀ a ∈ o.getD [], ∃ b, f a = some b ∧ g b = a) :
    ∃ es, mapOpt f (o.getD []) = some es ∧ listField (es.map g) = o := by
  obtain ⟨es, hes, hmap⟩ := mapOpt_roundtrip f g (o.getD []) h
  exact ⟨es, hes, by rw [hmap]; exact listField_getD o hne⟩

end entities

end VeriBatch

namespace VeriBatch

namespace entities

/-- Round trip for a canonical attachment entry. -/
theorem attachment_roundtrip (a : AttachmentDoc)
    (h : canonicalAttachmentDoc a = true) :
    ∃ e, Attachment.from_dict a = some e ∧ Attachment.to_dict e = a := by
  obtain ⟨t?, u?, d?, m?, c?, h?⟩ := a
  simp only [canonicalAttachmentDoc, Bool.and_eq_true] at h
  obtain ⟨⟨⟨⟨⟨ht, hu⟩, hd⟩, hm⟩, hc⟩, hh⟩ := h
  cases t? with
  | none => simp at ht
  | some t =>
    simp only [] at ht
    obtain ⟨u, rfl⟩ := Option.isSome_iff_exists.mp hu
    refine ⟨⟨t, u, d?, m?, c?, h?⟩, ?_, ?_⟩
    · simp only [Attachment.from_dict, ht, if_true]
    · simp [Attachment.to_dict, keepTruthy_eq _ hd, keepTruthy_eq _ hm,
        keepTruthy_eq _ hc, keepTruthy_eq _ hh]

/-- Round trip for a canonical input entry. -/
theorem batchInput_roundtrip (i : BatchInputDoc)
    (h : canonicalBatchInputDoc i = true) :
    ∃ e, BatchInput.from_dict i = some e ∧ BatchInput.to_dict e = i := by
  obtain ⟨b?, q?, a?⟩ := i
  simp only [canonicalBatchInputDoc, Bool.and_eq_true] at h
  obtain ⟨⟨hb, hq⟩, ha⟩ := h
  obtain ⟨b, rfl⟩ := Option.isSome_iff_exists.mp hb
  cases q? with
  | none => simp at hq
  | some q =>
    obtain ⟨qa?, qu?⟩ := q
    simp only [Bool.and_eq_true, Option.isSome_iff_exists] at hq
    obtain ⟨⟨qa, rfl⟩, ⟨qu, rfl⟩⟩ := hq
    refine ⟨⟨b, ⟨qa, qu⟩, a?⟩, ?_, ?_⟩
    · simp [BatchInput.from_dict, Quantity.from_dict]
    · simp [BatchInput.to_dict, Quantity.to_dict, keepTruthy_eq _ ha]

/-- Round trip for a canonical output entry. -/
theorem batchOutput_roundtrip (i : BatchInputDoc)
    (h : canonicalBatchInputDoc i = true) :
    ∃ e, BatchOutput.from_dict i = some e ∧ BatchOutput.to_dict e = i := by
  obtain ⟨b?, q?, a?⟩ := i
  simp only [canonicalBatchInputDoc, Bool.and_eq_true] at h
  obtain ⟨⟨hb, hq⟩, ha⟩ := h
  obtain ⟨b, rfl⟩ := Option.isSome_iff_exists.mp hb
  cases q? with
  | none => simp at hq
  | some q =>
    obtain ⟨qa?, qu?⟩ := q
    simp only [Bool.and_eq_true, Option.isSome_iff_exists] at hq
    obtain ⟨⟨qa, rfl⟩, ⟨qu, rfl⟩⟩ := hq
    refine ⟨⟨b, ⟨qa, qu⟩, a?⟩, ?_, ?_⟩
    · simp [BatchOutput.from_dict, Quantity.from_dict]
    · simp [BatchOutput.to_dict, Quantity.to_dict, keepTruthy_eq _ ha]

/-- Round trip for a canonical actor document. -/
theorem actor_roundtrip (d : ActorDoc) (h : canonicalActorDoc d = true) :
    ∃ e, Actor.from_dict d = some e ∧ Actor.to_dict e = d := by
  obtain ⟨sch, ty, i?, n?, kind, contacts, address, certs, ext, ca, ua⟩ := d
  simp only [canonicalActorDoc, Bool.and_eq_true, beq_iff_eq] at h
  obtain ⟨⟨⟨⟨⟨⟨⟨⟨⟨⟨hsch, hty⟩, hi⟩, hn⟩, hk⟩, hco⟩, had⟩, hce⟩, hex⟩,
    hca⟩, hua⟩ := h
  obtain ⟨i, rfl⟩ := Option.isSome_iff_exists.mp hi
  obtain ⟨n, rfl⟩ := Option.isSome_iff_exists.mp hn
  subst hsch hty
  refine ⟨_, rfl, ?_⟩
  simp [Actor.to_dict, keepTruthy_eq _ hk, keepNonempty_eq _ hco,
    keepNonempty_eq _ had, keepNonempty_eq _ hex, keepTruthy_eq _ hca,
    keepTruthy_eq _ hua, listField_getD _ hce]

end entities

end VeriBatch

namespace VeriBatch

namespace entities

/-- Round trip of an optional attachments key whose entries are canonical. -/
theorem attachList_ok (o : Option (List AttachmentDoc))
    (h : (match o with
          | none => true
          | some l => !l.isEmpty && l.all canonicalAttachmentDoc) = true) :
    ∃ es, mapOpt Attachment.from_dict (o.getD []) = some es ∧
      listField (es.map Attachment.to_dict) = o := by
  refine optList_roundtrip _ _ o ?_ ?_
  · cases o with
    | none => rfl
    | some l => exact (Bool.and_eq_true _ _ ▸ h).1
  · intro a ha
    refine attachment_roundtrip a ?_
    cases o with
    | none => simp at ha
    | some l =>
      have := (Bool.and_eq_true _ _ ▸ h).2
      exact List.all_eq_true.mp this a (by simpa using ha)

/-- Round trip of an optional inputs key whose entries are canonical. -/
theorem inputList_ok (o : Option (List BatchInputDoc))
    (h : (match o with
          | none => true
          | some l => !l.isEmpty && l.all canonicalBatchInputDoc) = true) :
    ∃ es, mapOpt BatchInput.from_dict (o.getD []) = some es ∧
      listField (es.map BatchInput.to_dict) = o := by
  refine optList_roundtrip _ _ o ?_ ?_
  · cases o with
    | none => rfl
    | some l => exact (Bool.and_eq_true _ _ ▸ h).1
  · intro a ha
    refine batchInput_roundtrip a ?_
    cases o with
    | none => simp at ha
    | some l =>
      have := (Bool.and_eq_true _ _ ▸ h).2
      exact List.all_eq_true.mp this a (by simpa using ha)

/-- Round trip of an optional outputs key whose entries are canonical. -/
theorem outputList_ok (o : Option (List BatchInputDoc))
    (h : (match o with
          | none => true
          | some l => !l.isEmpty && l.all canonicalBatchInputDoc) = true) :
    ∃ es, mapOpt BatchOutput.from_dict (o.getD []) = some es ∧
      listField (es.map BatchOutput.to_dict) = o := by
  refine optList_roundtrip _ _ o ?_ ?_
  · cases o with
    | none => rfl
    | some l => exact (Bool.and_eq_true _ _ ▸ h).1
  · intro a ha
    refine batchOutput_roundtrip a ?_
    cases o with
    | none => simp at ha
    | some l =>
      have := (Bool.and_eq_true _ _ ▸ h).2
      exact List.all_eq_true.mp this a (by simpa using ha)

/-- Round trip for a canonical location document. -/
theorem location_roundtrip (d : LocationDoc)
    (h : canonicalLocationDoc d = true) :
    ∃ e, Location.from_dict d = some e ∧ Location.to_dict e = d := by
  obtain ⟨sch, ty, i?, a?, n?, kind, coords, address, ext, ca, ua⟩ := d
  simp only [canonicalLocationDoc, Bool.and_eq_true, beq_iff_eq] at h
  obtain ⟨⟨⟨⟨⟨⟨⟨⟨⟨⟨hsch, hty⟩, hi⟩, ha⟩, hn⟩, hk⟩, hcoo⟩, had⟩, hex⟩,
    hca⟩, hua⟩ := h
  obtain ⟨i, rfl⟩ := Option.isSome_iff_exists.mp hi
  obtain ⟨a, rfl⟩ := Option.isSome_iff_exists.mp ha
  obtain ⟨n, rfl⟩ := Option.isSome_iff_exists.mp hn
  subst hsch hty
  refine ⟨_, rfl, ?_⟩
  simp [Location.to_dict, keepTruthy_eq _ hk, keepNonempty_eq _ hcoo,
    keepNonempty_eq _ had, keepNonempty_eq _ hex, keepTruthy_eq _ hca,
    keepTruthy_eq _ hua]

/-- Round trip for a canonical item document. -/
theorem item_roundtrip (d : ItemDoc) (h : canonicalItemDoc d = true) :
    ∃ e, Item.from_dict d = some e ∧ Item.to_dict e = d := by
  obtain ⟨sch, ty, i?, a?, n?, cat, unit, desc, ext, ca, ua⟩ := d
  simp only [canonicalItemDoc, Bool.and_eq_true, beq_iff_eq] at h
  obtain ⟨⟨⟨⟨⟨⟨⟨⟨⟨⟨hsch, hty⟩, hi⟩, ha⟩, hn⟩, hcat⟩, hun⟩, hde⟩, hex⟩,
    hca⟩, hua⟩ := h
  obtain ⟨i, rfl⟩ := Option.isSome_iff_exists.mp hi
  obtain ⟨a, rfl⟩ := Option.isSome_iff_exists.mp ha
  obtain ⟨n, rfl⟩ := Option.isSome_iff_exists.mp hn
  subst hsch hty
  refine ⟨_, rfl, ?_⟩
  simp [Item.to_dict, keepTruthy_eq _ hcat, keepTruthy_eq _ hun,
    keepTruthy_eq _ hde, keepNonempty_eq _ hex, keepTruthy_eq _ hca,
    keepTruthy_eq _ hua]

/-- Round trip for a canonical process document. -/
theorem process_roundtrip (d : ProcessDoc)
    (h : canonicalProcessDoc d = true) :
    ∃ e, Process.from_dict d = some e ∧ Process.to_dict e = d := by
  obtain ⟨sch, ty, i?, a?, n?, kind, ver, steps, ins, outs, ats, ca, ua⟩ := d
  simp only [canonicalProcessDoc, Bool.and_eq_true, beq_iff_eq] at h
  obtain ⟨⟨⟨⟨⟨⟨⟨⟨⟨⟨⟨⟨hsch, hty⟩, hi⟩, ha⟩, hn⟩, hk⟩, hv⟩, hst⟩, hin⟩,
    hout⟩, hat⟩, hca⟩, hua⟩ := h
  obtain ⟨i, rfl⟩ := Option.isSome_iff_exists.mp hi
  obtain ⟨a, rfl⟩ := Option.isSome_iff_exists.mp ha
  obtain ⟨n, rfl⟩ := Option.isSome_iff_exists.mp hn
  subst hsch hty
  obtain ⟨es, hes, hesmap⟩ := attachList_ok ats hat
  refine ⟨⟨i, a, n, kind, ver, steps.getD [], ins, outs, es, ca, ua⟩, ?_, ?_⟩
  · simp [Process.from_dict, hes]
  · simp [Process.to_dict, keepTruthy_eq _ hk, keepTruthy_eq _ hv,
      listField_getD _ hst, keepNonempty_eq _ hin, keepNonempty_eq _ hout,
      hesmap, keepTruthy_eq _ hca, keepTruthy_eq _ hua]

end entities

end VeriBatch

namespace VeriBatch

namespace entities

/-- `"active"` is a valid batch status. -/
theorem validStatus_active : validStatus "active" = true := by decide

/-- Round trip for a canonical batch document. -/
theorem batch_roundtrip (d : BatchDoc) (h : canonicalBatchDoc d = true) :
    ∃ e, Batch.from_dict d = some e ∧ Batch.to_dict e = d := by
  obtain ⟨sch, ty, i?, a?, it?, loc, qty, st?, ok, pd, ed, bbd, ext, ats,
    ca, ua⟩ := d
  simp only [canonicalBatchDoc, Bool.and_eq_true, beq_iff_eq] at h
  obtain ⟨⟨⟨⟨⟨⟨⟨⟨⟨⟨⟨⟨⟨⟨⟨hsch, hty⟩, hi⟩, ha⟩, hit⟩, hloc⟩, hqty⟩, hstat⟩,
    hok⟩, hpd⟩, hed⟩, hbbd⟩, hex⟩, hat⟩, hca⟩, hua⟩ := h
  obtain ⟨i, rfl⟩ := Option.isSome_iff_exists.mp hi
  obtain ⟨a, rfl⟩ := Option.isSome_iff_exists.mp ha
  obtain ⟨it, rfl⟩ := Option.isSome_iff_exists.mp hit
  subst hsch hty
  obtain ⟨es, hes, hesmap⟩ := attachList_ok ats hat
  have hcommon :
      ∀ (qv : Option Quantity) (stv : String),
        (if stv ≠ "active" then some stv else none) = st? →
        qv.map Quantity.to_dict = qty →
        Batch.to_dict ⟨i, a, it, loc, qv, stv, ok, pd, ed, bbd, ext, es,
          ca, ua⟩ =
        ⟨some SCHEMA_VERSION, some "batch", some i, some a, some it, loc,
         qty, st?, ok, pd, ed, bbd, ext, ats, ca, ua⟩ := by
    intro qv stv hst hq
    simp [Batch.to_dict, keepTruthy_eq _ hloc, keepTruthy_eq _ hok,
      keepTruthy_eq _ hpd, keepTruthy_eq _ hed, keepTruthy_eq _ hbbd,
      keepNonempty_eq _ hex, hesmap, keepTruthy_eq _ hca,
      keepTruthy_eq _ hua, hst, hq]
  cases st? with
  | none =>
    cases qty with
    | none =>
      refine ⟨⟨i, a, it, loc, none, "active", ok, pd, ed, bbd, ext, es,
        ca, ua⟩, ?_, ?_⟩
      · simp [Batch.from_dict, hes, validStatus_active]
      · exact hcommon none "active" (by simp) rfl
    | some q =>
      obtain ⟨qa?, qu?⟩ := q
      simp only [Bool.and_eq_true, Option.isSome_iff_exists] at hqty
      obtain ⟨⟨qa, rfl⟩, ⟨qu, rfl⟩⟩ := hqty
      refine ⟨⟨i, a, it, loc, some ⟨qa, qu⟩, "active", ok, pd, ed, bbd,
        ext, es, ca, ua⟩, ?_, ?_⟩
      · simp [Batch.from_dict, Quantity.from_dict, hes, validStatus_active]
      · exact hcommon (some ⟨qa, qu⟩) "active" (by simp)
          (by simp [Quantity.to_dict])
  | some stv =>
    simp only [Bool.and_eq_true, bne_iff_ne, ne_eq, decide_eq_true_eq]
      at hstat
    obtain ⟨hval, hne⟩ := hstat
    cases qty with
    | none =>
      refine ⟨⟨i, a, it, loc, none, stv, ok, pd, ed, bbd, ext, es,
        ca, ua⟩, ?_, ?_⟩
      · simp [Batch.from_dict, hes, hval]
      · exact hcommon none stv (by simp [hne]) rfl
    | some q =>
      obtain ⟨qa?, qu?⟩ := q
      simp only [Bool.and_eq_true, Option.isSome_iff_exists] at hqty
      obtain ⟨⟨qa, rfl⟩, ⟨qu, rfl⟩⟩ := hqty
      refine ⟨⟨i, a, it, loc, some ⟨qa, qu⟩, stv, ok, pd, ed, bbd, ext, es,
        ca, ua⟩, ?_, ?_⟩
      · simp [Batch.from_dict, Quantity.from_dict, hes, hval]
      · exact hcommon (some ⟨qa, qu⟩) stv (by simp [hne])
          (by simp [Quantity.to_dict])

/-- Round trip for a canonical event document. -/
theorem event_roundtrip (d : EventEntityDoc)
    (h : canonicalEventDoc d = true) :
    ∃ e, Event.from_dict d = some e ∧ Event.to_dict e = d := by
  obtain ⟨sch, ty, i?, a?, ts?, et?, loc, pid, ins, outs, pms, notes, pb,
    ext, ats, ca, ua⟩ := d
  simp only [canonicalEventDoc, Bool.and_eq_true, beq_iff_eq] at h
  obtain ⟨⟨⟨⟨⟨⟨⟨⟨⟨⟨⟨⟨⟨⟨⟨⟨hsch, hty⟩, hi⟩, ha⟩, hts⟩, het⟩, hloc⟩, hpid⟩,
    hin⟩, hout⟩, hpm⟩, hno⟩, hpb⟩, hex⟩, hat⟩, hca⟩, hua⟩ := h
  obtain ⟨i, rfl⟩ := Option.isSome_iff_exists.mp hi
  obtain ⟨a, rfl⟩ := Option.isSome_iff_exists.mp ha
  obtain ⟨ts, rfl⟩ := Option.isSome_iff_exists.mp hts
  subst hsch hty
  cases et? with
  | none => simp at het
  | some et =>
    simp only [] at het
    obtain ⟨eis, heis, heismap⟩ := inputList_ok ins hin
    obtain ⟨eos, heos, heosmap⟩ := outputList_ok outs hout
    obtain ⟨eps, heps, hepsmap⟩ := inputList_ok pms hpm
    obtain ⟨eas, heas, heasmap⟩ := attachList_ok ats hat
    refine ⟨⟨i, a, ts, et, loc, pid, eis, eos, eps, notes, pb, ext, eas,
      ca, ua⟩, ?_, ?_⟩
    · simp [Event.from_dict, het, heis, heos, heps, heas]
    · simp [Event.to_dict, keepTruthy_eq _ hloc, keepTruthy_eq _ hpid,
        heismap, heosmap, hepsmap, heasmap, keepTruthy_eq _ hno,
        keepTruthy_eq _ hpb, keepNonempty_eq _ hex, keepTruthy_eq _ hca,
        keepTruthy_eq _ hua]

end entities

end VeriBatch

namespace VeriBatch

/-! ## Store-level helper lemmas -/

/-- A found batch row carries the looked-up id. -/
theorem getBatch_id {s : Store} {batch_id : String} {b : Batch}
    (h : getBatch s batch_id = some b) : b.id = batch_id := by
  have := List.find?_some h
  simpa using this

/-- Lookup after appending one row. -/
theorem getBatch_append (s : Store) (nb : Batch) (id : String) :
    getBatch { s with batches := s.batches ++ [nb] } id =
      (getBatch s id).or (if nb.id = id then some nb else none) := by
  unfold getBatch
  simp only [List.find?_append]
  congr 1
  simp [List.find?_cons]
  split <;> simp_all

/-- Lookup after an in-place update of the first row matching `bid`, for an
update that does not change the row's id. -/
theorem find?_updateFirst (l : List Batch) (bid id : String)
    (f : Batch → Batch) (hf : ∀ b, (f b).id = b.id) :
    (updateFirstBatch l bid f).find? (fun b => b.id = id) =
      if id = bid then (l.find? (fun b => b.id = bid)).map f
      else l.find? (fun b => b.id = id) := by
  induction l with
  | nil => simp [updateFirstBatch]
  | cons b rest ih =>
    by_cases hb : b.id = bid
    · simp only [updateFirstBatch, if_pos hb]
      by_cases hid : id = bid
      · subst hid
        simp [List.find?_cons, hf, hb]
      · have : (f b).id = id ↔ False := by simp [hf, hb, Ne.symm, hid]
        simp [List.find?_cons, hf, hb, hid, Ne.symm hid]
    · simp only [updateFirstBatch, if_neg hb]
      by_cases hid : b.id = id
      · have hibid : ¬ id = bid := by
          intro hcon; exact hb (hid.trans hcon)
        simp [List.find?_cons, hid, hibid]
      · simp [List.find?_cons, hid, hb, ih]

/-- Lookup after `update_batch_status`. -/
theorem getBatch_update_batch_status (s : Store) (bid st id : String) :
    getBatch (update_batch_status s bid st).2 id =
      if id = bid then (getBatch s bid).map (fun b => { b with status := st })
      else getBatch s id := by
  unfold update_batch_status
  cases h : getBatch s bid with
  | none =>
    simp only []
    by_cases hid : id = bid
    · subst hid; simp [h]
    · simp [hid]
  | some b =>
    simp only [getBatch]
    rw [find?_updateFirst s.batches bid id
      (fun x => { x with status := st }) (fun _ => rfl)]
    by_cases hid : id = bid <;> simp_all [getBatch]

/-- Lookup after `update_batch_details`. -/
theorem getBatch_update_batch_details (s : Store) (bid : String)
    (data : BatchUpdate) (id : String) :
    getBatch (update_batch_details s bid data).2 id =
      if id = bid then (getBatch s bid).map (applyBatchUpdate data)
      else getBatch s id := by
  unfold update_batch_details
  cases h : getBatch s bid with
  | none =>
    simp only []
    by_cases hid : id = bid
    · subst hid; simp [h]
    · simp [hid]
  | some b =>
    have hpres : ∀ x, (applyBatchUpdate data x).id = x.id := by
      intro x
      simp only [applyBatchUpdate]
      cases data.production_date <;> cases data.expiration_date <;>
        cases data.status <;> cases data.quantity <;>
        cases data.origin_kind <;> rfl
    simp only [getBatch]
    rw [find?_updateFirst s.batches bid id (applyBatchUpdate data) hpres]
    by_cases hid : id = bid <;> simp_all [getBatch]

/-- `update_batch_status` does not touch the event log. -/
theorem events_update_batch_status (s : Store) (bid st : String) :
    (update_batch_status s bid st).2.events = s.events := by
  unfold update_batch_status
  cases getBatch s bid <;> rfl

/-- `update_batch_details` does not touch the event log. -/
theorem events_update_batch_details (s : Store) (bid : String)
    (data : BatchUpdate) :
    (update_batch_details s bid data).2.events = s.events := by
  unfold update_batch_details
  cases getBatch s bid <;> rfl

/-- Inversion of a successful `create_batch`. -/
theorem create_batch_ok_inv {s : Store} {batch_id : String}
    {item_id : Option String} {quantity : Option Quantity} {status : String}
    {pd ed ok loc : Option String} {b : Batch} {s' : Store}
    (h : create_batch s batch_id item_id quantity status pd ed ok loc =
      .ok (b, s')) :
    s'.batches = s.batches ++ [b] ∧ s'.events = s.events ∧
    b.id = batch_id ∧ b.status = status ∧ b.origin_kind = ok ∧
    b.quantity = quantity.map (fun q => ⟨some q.amount, some q.unit⟩) ∧
    getBatch s batch_id = none ∧
    (∀ q, quantity = some q → 0 ≤ q.amount) := by
  unfold create_batch at h
  cases hq : quantity with
  | none =>
    rw [hq] at h
    simp only [validate_batch_quantity] at h
    cases hdo : validate_date_order pd ed with
    | error e => rw [hdo] at h; simp at h
    | ok _ =>
      rw [hdo] at h
      cases item_id with
      | none => simp at h
      | some iid =>
        simp only [] at h
        by_cases hex : (getBatch s batch_id).isSome
        · simp [hex] at h
        · rw [if_neg hex] at h
          simp only [Except.ok.injEq, Prod.mk.injEq] at h
          obtain ⟨hb, hs⟩ := h
          subst hb hs
          refine ⟨rfl, rfl, rfl, rfl, rfl, rfl, ?_, ?_⟩
          · simpa using hex
          · intro q hq'; cases hq'
  | some q =>
    rw [hq] at h
    have hv : validate_batch_quantity (some ⟨some q.amount, some q.unit⟩) =
        if q.amount < 0 then
          .error (.validation "Quantity amount cannot be negative")
        else .ok () := by
      simp [validate_batch_quantity, qdTruthy]
    simp only [hv] at h
    by_cases hneg : q.amount < 0
    · rw [if_pos hneg] at h; simp at h
    · rw [if_neg hneg] at h
      cases hdo : validate_date_order pd ed with
      | error e => rw [hdo] at h; simp at h
      | ok _ =>
        rw [hdo] at h
        cases item_id with
        | none => simp at h
        | some iid =>
          simp only [] at h
          by_cases hex : (getBatch s batch_id).isSome
          · simp [hex] at h
          · rw [if_neg hex] at h
            simp only [Except.ok.injEq, Prod.mk.injEq] at h
            obtain ⟨hb, hs⟩ := h
            subst hb hs
            refine ⟨rfl, rfl, rfl, rfl, rfl, rfl, ?_, ?_⟩
            · simpa using hex
            · intro q' hq'
              cases hq'
              exact le_of_not_lt hneg

/-- A successful `create_batch` with a fully-given quantity, no expiration
date, and a fresh id. -/
theorem create_batch_ok {s : Store} {batch_id : String} {iid : String}
    {q : Quantity} {status : String} {pd ok loc : Option String}
    (hamt : 0 ≤ q.amount) (hfresh : getBatch s batch_id = none) :
    create_batch s batch_id (some iid) (some q) status pd none ok loc =
      .ok (⟨batch_id, iid, status, pd, none, some ⟨some q.amount,
            some q.unit⟩, ok, loc⟩,
           { s with batches := s.batches ++
              [⟨batch_id, iid, status, pd, none, some ⟨some q.amount,
                some q.unit⟩, ok, loc⟩] }) := by
  unfold create_batch
  have hdo : validate_date_order pd none = .ok () := by
    unfold validate_date_order; cases pd <;> rfl
  simp [validate_batch_quantity, qdTruthy, not_lt.mpr hamt, hdo, hfresh]

end VeriBatch

namespace VeriBatch

/-! ## C1 / C4 helper: `validate_production_inputs` rejects unavailable
batches -/

/-- One step of `validate_production_inputs` either recurses or throws a
`ValidationError`. -/
theorem vpi_cons_cases (s : Store) (hd : InputRef) (tl : List InputRef) :
    validate_production_inputs s (hd :: tl) =
      validate_production_inputs s tl ∨
    ∃ m, validate_production_inputs s (hd :: tl) =
      .error (.validation m) := by
  simp only [validate_production_inputs]
  cases hbid : hd.batch_id with
  | none => exact Or.inl rfl
  | some bid =>
    simp only []
    split
    · exact Or.inl rfl
    · cases hgb : getBatch s bid with
      | none => exact Or.inr ⟨_, rfl⟩
      | some b =>
        simp only []
        split
        · exact Or.inr ⟨_, rfl⟩
        · split
          · cases hq : b.quantity with
            | none => exact Or.inl rfl
            | some q =>
              simp only []
              split
              · exact Or.inl rfl
              · split
                · exact Or.inr ⟨_, rfl⟩
                · split
                  · exact Or.inr ⟨_, rfl⟩
                  · exact Or.inl rfl
          · exact Or.inl rfl

/-- `validate_production_inputs` throws a `ValidationError` whenever some
input entry references (with a truthy id) an existing batch whose status is
neither `active` nor `quarantined`. -/
theorem vpi_rejects_unavailable (s : Store) (bid : String) (b : Batch)
    (hne : bid ≠ "") (hb : getBatch s bid = some b)
    (hst : b.status ≠ "active" ∧ b.status ≠ "quarantined") :
    ∀ inputs : List InputRef, (∃ i ∈ inputs, i.batch_id = some bid) →
      ∃ m, validate_production_inputs s inputs = .error (.validation m) := by
  intro inputs hmem
  induction inputs with
  | nil => simp at hmem
  | cons hd tl ih =>
    obtain ⟨i, hi, hbid⟩ := hmem
    rcases List.mem_cons.mp hi with rfl | hi'
    · unfold validate_production_inputs
      rw [hbid]
      simp only []
      rw [if_neg hne, hb]
      simp only []
      rw [if_pos hst]
      exact ⟨_, rfl⟩
    · rcases vpi_cons_cases s hd tl with heq | ⟨m, hm⟩
      · rw [heq]; exact ih ⟨i, hi', hbid⟩
      · exact ⟨m, hm⟩

/-- C1: a processing event whose inputs reference an unavailable batch fails
with a `ValidationError` before any mutation: the returned store is the
input store. -/
theorem record_processing_rejects_unavailable (s : Store) (event_id : String)
    (process_id : Option String) (inputs : List InputRef)
    (outputs : List OutputSpec) (location_id notes : Option String)
    (timestamp : String) (bid : String) (b : Batch)
    (hne : bid ≠ "") (hmem : ∃ i ∈ inputs, i.batch_id = some bid)
    (hb : getBatch s bid = some b)
    (hst : b.status ≠ "active" ∧ b.status ≠ "quarantined") :
    (∃ m, (record_processing_event s event_id process_id inputs outputs
            location_id notes timestamp).1 = .error (.validation m)) ∧
    (record_processing_event s event_id process_id inputs outputs
      location_id notes timestamp).2 = s := by
  obtain ⟨m, hm⟩ := vpi_rejects_unavailable s bid b hne hb hst inputs hmem
  unfold record_processing_event
  rw [hm]
  exact ⟨⟨m, rfl⟩, rfl⟩

end VeriBatch

namespace VeriBatch

/-! ## C7 helpers: guarded recursion of the traceability tree never runs out
of fuel -/

/-- The input loop is total when the threaded recursive call is. -/
theorem buildTreeInputs_isSome (recf : TreeRec) (ev : EventDoc)
    (hrec : ∀ bid' visited', (recf bid' visited').isSome = true) :
    ∀ (inps : List InputRef) (visited : List String),
      (buildTreeInputs recf ev inps visited).isSome = true := by
  intro inps
  induction inps with
  | nil => intro visited; simp [buildTreeInputs]
  | cons i rest ih =>
    intro visited
    simp only [buildTreeInputs]
    cases hbid : i.batch_id with
    | none => exact ih visited
    | some ibid =>
      simp only []
      split
      · exact ih visited
      · obtain ⟨⟨t, v1⟩, hp⟩ :=
          Option.isSome_iff_exists.mp (hrec ibid visited)
        rw [hp]
        simp only []
        obtain ⟨⟨cs, v2⟩, hq⟩ := Option.isSome_iff_exists.mp (ih v1)
        rw [hq]
        simp

/-- The event loop is total when the threaded recursive call is. -/
theorem buildTreeEvents_isSome (recf : TreeRec) (batch_id : String)
    (hrec : ∀ bid' visited', (recf bid' visited').isSome = true) :
    ∀ (evts : List EventDoc) (visited : List String),
      (buildTreeEvents recf batch_id evts visited).isSome = true := by
  intro evts
  induction evts with
  | nil => intro visited; simp [buildTreeEvents]
  | cons ev rest ih =>
    intro visited
    simp only [buildTreeEvents]
    split
    · obtain ⟨⟨cs1, v1⟩, hp⟩ := Option.isSome_iff_exists.mp
        (buildTreeInputs_isSome recf ev hrec ev.inputs visited)
      rw [hp]
      simp only []
      obtain ⟨⟨cs2, v2⟩, hq⟩ := Option.isSome_iff_exists.mp (ih v1)
      rw [hq]
      simp
    · exact ih visited

/-- With fuel at least `max_depth + 1 - depth`, `build_tree` always returns
a tree: the depth guard fires before the fuel runs out. -/
theorem buildTreeFuel_isSome (s : Store) (md : ℕ) :
    ∀ (fuel : ℕ) (batch_id : String) (depth : ℕ) (visited : List String),
      md + 1 - depth ≤ fuel →
      (buildTreeFuel s md fuel batch_id depth visited).isSome = true := by
  intro fuel
  induction fuel with
  | zero =>
    intro batch_id depth visited hle
    have hd : depth > md := by omega
    unfold buildTreeFuel
    rw [if_pos (Or.inl hd)]
    simp
  | succ f ih =>
    intro batch_id depth visited hle
    unfold buildTreeFuel
    by_cases hguard : depth > md ∨ visited.contains batch_id = true
    · rw [if_pos hguard]; simp
    · rw [if_neg hguard]
      simp only []
      have hdepth : depth ≤ md := by
        rcases Nat.lt_or_ge md depth with hlt | hge
        · exact absurd (Or.inl hlt) hguard
        · exact hge
      have hrec : ∀ bid' visited',
          (buildTreeFuel s md f bid' (depth + 1) visited').isSome = true := by
        intro bid' visited'
        exact ih bid' (depth + 1) visited' (by omega)
      cases hgb : getBatch s batch_id with
      | none => simp
      | some b =>
        simp only []
        obtain ⟨⟨children, vis'⟩, hp⟩ := Option.isSome_iff_exists.mp
          (buildTreeEvents_isSome _ batch_id hrec s.events
            (visited ++ [batch_id]))
        rw [hp]
        simp

end VeriBatch

namespace VeriBatch

/-! ## Concrete fixtures used by witnesses and counterexamples -/

/-- A kilogram quantity document. -/
def kgQ (a : ℚ) : QuantityDoc := ⟨some a, some "kg"⟩

/-- A batch row of `item1` with a kilogram quantity. -/
def mkBatch (i : String) (q : ℚ) (st : String) : Batch :=
  ⟨i, "item1", st, some "2024-01-01", none, some (kgQ q), none, none⟩

/-- A store holding one disposed 10 kg batch `src`. -/
def disposedStore : Store := ⟨[mkBatch "src" 10 "disposed"], []⟩

/-- A store holding one active 10 kg batch `src`. -/
def activeStore : Store := ⟨[mkBatch "src" 10 "active"], []⟩

/-- A store with two active 10 kg batches `a` and `b` of the same item. -/
def twoTensStore : Store := ⟨[mkBatch "a" 10 "active", mkBatch "b" 10 "active"], []⟩

/-- A pathological event log: batch `A`'s producing event lists `A` itself
as an input. -/
def cyclicStore : Store :=
  ⟨[mkBatch "A" 5 "active"],
   [⟨"e1", "processing", "T", [⟨some "A", some (kgQ 1)⟩],
     [⟨some "A", none, some (kgQ 1)⟩], none, none, none⟩]⟩

end VeriBatch

namespace VeriBatch

/-- C1: every `record_processing_event` call whose inputs reference (with a
truthy batch id) an existing batch whose status is neither `active` nor
`quarantined` raises a `ValidationError` and leaves the store unchanged — no
batch is modified and no event is persisted. -/
theorem C1_processing_rejects_unavailable_input (s : Store)
    (event_id : String) (process_id : Option String)
    (inputs : List InputRef) (outputs : List OutputSpec)
    (location_id notes : Option String) (timestamp : String)
    (bid : String) (b : Batch)
    (hne : bid ≠ "") (hmem : ∃ i ∈ inputs, i.batch_id = some bid)
    (hb : getBatch s bid = some b)
    (hst : b.status ≠ "active" ∧ b.status ≠ "quarantined") :
    (∃ m, (record_processing_event s event_id process_id inputs outputs
            location_id notes timestamp).1 = .error (.validation m)) ∧
    (record_processing_event s event_id process_id inputs outputs
      location_id notes timestamp).2 = s :=
  record_processing_rejects_unavailable s event_id process_id inputs outputs
    location_id notes timestamp bid b hne hmem hb hst

/-- C1 witness: recording a processing event that consumes the disposed
batch `src` fails with a `ValidationError` and leaves the store unchanged. -/
theorem C1_witness :
    (∃ m, (record_processing_event disposedStore "ev1" none
            [⟨some "src", some (kgQ 1)⟩] [] none none "T").1 =
          .error (.validation m)) ∧
    (record_processing_event disposedStore "ev1" none
      [⟨some "src", some (kgQ 1)⟩] [] none none "T").2 = disposedStore :=
  C1_processing_rejects_unavailable_input disposedStore "ev1" none
    [⟨some "src", some (kgQ 1)⟩] [] none none "T" "src"
    (mkBatch "src" 10 "disposed") (by decide)
    ⟨⟨some "src", some (kgQ 1)⟩, by simp, rfl⟩ (by rfl)
    (by constructor <;> decide)

/-- C7: `get_full_traceability_graph` terminates for every event log
(including cyclic ones): with fuel `max_depth + 1` the guarded recursion
always returns a tree, and a batch id already visited — or a recursion depth
beyond `max_depth` — yields a `{batch_id, visited: true}` leaf instead of
recursing. -/
theorem C7_traceability_graph_terminates :
    (∀ (s : Store) (batch_id : String) (max_depth : ℕ),
      (get_full_traceability_graph s batch_id max_depth).isSome = true) ∧
    (∀ (s : Store) (max_depth fuel : ℕ) (batch_id : String) (depth : ℕ)
      (visited : List String),
      depth > max_depth ∨ visited.contains batch_id = true →
      buildTreeFuel s max_depth fuel batch_id depth visited =
        some (.visited batch_id, visited)) := by
  constructor
  · intro s batch_id max_depth
    unfold get_full_traceability_graph
    have := buildTreeFuel_isSome s max_depth (max_depth + 1) batch_id 0 []
      (by omega)
    obtain ⟨p, hp⟩ := Option.isSome_iff_exists.mp this
    rw [hp]
    simp
  · intro s max_depth fuel batch_id depth visited hguard
    unfold buildTreeFuel
    rw [if_pos hguard]

/-- C7 witness: on the cyclic log where batch `A`'s producing event lists
`A` itself as an input, the graph still terminates, and the second visit of
`A` (depth 1, `A` already visited) is a `visited` leaf; the concrete graph
contains exactly that leaf. -/
theorem C7_witness :
    (get_full_traceability_graph cyclicStore "A" 10).isSome = true ∧
    buildTreeFuel cyclicStore 10 10 "A" 1 ["A"] =
      some (.visited "A", ["A"]) ∧
    get_full_traceability_graph cyclicStore "A" 10 =
      some (.node "A" "item1" "active" (some "2024-01-01") (some (kgQ 5)) 0
        [(.visited "A", some (kgQ 1), "e1", "processing")]) :=
  ⟨C7_traceability_graph_terminates.1 cyclicStore "A" 10,
   C7_traceability_graph_terminates.2 cyclicStore 10 10 "A" 1 ["A"]
     (Or.inr (by decide)),
   by rfl⟩

end VeriBatch

namespace VeriBatch

/-! ## C10 helpers: `get_batch_traceability` collects only existing batches
and all triggering events -/

/-- `contains` on id lists is membership. -/
theorem contains_iff_mem (l : List String) (a : String) :
    l.contains a = true ↔ a ∈ l :=
  List.elem_iff

/-- Entries collected by the upstream input scan beyond the accumulator
point at existing batch records. -/
theorem scanEntryRefs_mem (s : Store) (event_id : String) :
    ∀ (l : List InputRef) (acc : List TraceEntry) (e : TraceEntry),
      e ∈ scanEntryRefs s event_id acc l →
      e ∈ acc ∨ (getBatch s e.batch_id).isSome = true := by
  intro l
  induction l with
  | nil => intro acc e he; exact Or.inl he
  | cons inp rest ih =>
    intro acc e he
    simp only [scanEntryRefs] at he
    cases hbid : inp.batch_id with
    | none => rw [hbid] at he; simp only [] at he; exact ih acc e he
    | some ref_id =>
      rw [hbid] at he
      simp only [] at he
      split at he
      · exact ih acc e he
      · split at he
        · exact ih acc e he
        · cases hgb : getBatch s ref_id with
          | none => rw [hgb] at he; exact ih acc e he
          | some b =>
            rw [hgb] at he
            rcases ih _ e he with hacc | hsome
            · rcases List.mem_append.mp hacc with h1 | h2
              · exact Or.inl h1
              · right
                have : e = ⟨b.id, b.item_id, inp.amount, b.status,
                    event_id⟩ := by simpa using h2
                subst this
                rw [getBatch_id hgb, hgb]
                rfl
            · exact Or.inr hsome

/-- Entries collected by the downstream output scan beyond the accumulator
point at existing batch records. -/
theorem scanEntryRefsOut_mem (s : Store) (event_id : String) :
    ∀ (l : List OutputSpec) (acc : List TraceEntry) (e : TraceEntry),
      e ∈ scanEntryRefsOut s event_id acc l →
      e ∈ acc ∨ (getBatch s e.batch_id).isSome = true := by
  intro l
  induction l with
  | nil => intro acc e he; exact Or.inl he
  | cons output rest ih =>
    intro acc e he
    simp only [scanEntryRefsOut] at he
    cases hbid : output.batch_id with
    | none => rw [hbid] at he; simp only [] at he; exact ih acc e he
    | some ref_id =>
      rw [hbid] at he
      simp only [] at he
      split at he
      · exact ih acc e he
      · split at he
        · exact ih acc e he
        · cases hgb : getBatch s ref_id with
          | none => rw [hgb] at he; exact ih acc e he
          | some b =>
            rw [hgb] at he
            rcases ih _ e he with hacc | hsome
            · rcases List.mem_append.mp hacc with h1 | h2
              · exact Or.inl h1
              · right
                have : e = ⟨b.id, b.item_id, output.amount, b.status,
                    event_id⟩ := by simpa using h2
                subst this
                rw [getBatch_id hgb, hgb]
                rfl
            · exact Or.inr hsome

/-- Batch entries collected by the per-event upstream output scan. -/
theorem upstreamScanOutputs_mem (s : Store) (batch_id : String)
    (ev : EventDoc) :
    ∀ (outs : List OutputSpec) (acc : List TraceEntry × List EventDoc)
      (e : TraceEntry), e ∈ (upstreamScanOutputs s batch_id ev acc outs).1 →
      e ∈ acc.1 ∨ (getBatch s e.batch_id).isSome = true := by
  intro outs
  induction outs with
  | nil => intro acc e he; exact Or.inl he
  | cons o rest ih =>
    intro acc e he
    simp only [upstreamScanOutputs] at he
    split at he
    · rcases ih _ e he with hacc | hsome
      · exact scanEntryRefs_mem s ev.id ev.inputs acc.1 e hacc
      · exact Or.inr hsome
    · exact ih acc e he

/-- Batch entries collected by the upstream event loop. -/
theorem upstreamScan_mem (s : Store) (batch_id : String) :
    ∀ (evts : List EventDoc) (acc : List TraceEntry × List EventDoc)
      (e : TraceEntry), e ∈ (upstreamScan s batch_id acc evts).1 →
      e ∈ acc.1 ∨ (getBatch s e.batch_id).isSome = true := by
  intro evts
  induction evts with
  | nil => intro acc e he; exact Or.inl he
  | cons ev rest ih =>
    intro acc e he
    simp only [upstreamScan] at he
    rcases ih _ e he with hacc | hsome
    · exact upstreamScanOutputs_mem s batch_id ev ev.outputs acc e hacc
    · exact Or.inr hsome

/-- Batch entries collected by the per-event downstream input scan. -/
theorem downstreamScanInputs_mem (s : Store) (batch_id : String)
    (ev : EventDoc) :
    ∀ (inps : List InputRef) (acc : List TraceEntry × List EventDoc)
      (e : TraceEntry),
      e ∈ (downstreamScanInputs s batch_id ev acc inps).1 →
      e ∈ acc.1 ∨ (getBatch s e.batch_id).isSome = true := by
  intro inps
  induction inps with
  | nil => intro acc e he; exact Or.inl he
  | cons i rest ih =>
    intro acc e he
    simp only [downstreamScanInputs] at he
    split at he
    · rcases ih _ e he with hacc | hsome
      · exact scanEntryRefsOut_mem s ev.id ev.outputs acc.1 e hacc
      · exact Or.inr hsome
    · exact ih acc e he

/-- Batch entries collected by the downstream event loop. -/
theorem downstreamScan_mem (s : Store) (batch_id : String) :
    ∀ (evts : List EventDoc) (acc : List TraceEntry × List EventDoc)
      (e : TraceEntry), e ∈ (downstreamScan s batch_id acc evts).1 →
      e ∈ acc.1 ∨ (getBatch s e.batch_id).isSome = true := by
  intro evts
  induction evts with
  | nil => intro acc e he; exact Or.inl he
  | cons ev rest ih =>
    intro acc e he
    simp only [downstreamScan] at he
    rcases ih _ e he with hacc | hsome
    · exact downstreamScanInputs_mem s batch_id ev ev.inputs acc e hacc
    · exact Or.inr hsome

end VeriBatch

namespace VeriBatch

/-- The upstream output scan only appends to the collected event list. -/
theorem upstreamScanOutputs_events (s : Store) (batch_id : String)
    (ev : EventDoc) :
    ∀ (outs : List OutputSpec) (acc : List TraceEntry × List EventDoc),
      ∃ tl, (upstreamScanOutputs s batch_id ev acc outs).2 = acc.2 ++ tl := by
  intro outs
  induction outs with
  | nil => intro acc; exact ⟨[], (List.append_nil _).symm⟩
  | cons o rest ih =>
    intro acc
    simp only [upstreamScanOutputs]
    split
    · obtain ⟨tl, htl⟩ := ih (scanEntryRefs s ev.id acc.1 ev.inputs,
        acc.2 ++ [ev])
      exact ⟨[ev] ++ tl, by simp [htl]⟩
    · exact ih acc

/-- An event one of whose outputs matches the traced batch is collected by
the upstream output scan. -/
theorem upstreamScanOutputs_collects (s : Store) (batch_id : String)
    (ev : EventDoc) :
    ∀ (outs : List OutputSpec) (acc : List TraceEntry × List EventDoc),
      (∃ o ∈ outs, o.batch_id = some batch_id) →
      ev ∈ (upstreamScanOutputs s batch_id ev acc outs).2 := by
  intro outs
  induction outs with
  | nil => intro acc h; simp at h
  | cons o rest ih =>
    intro acc ⟨o', ho', hbid⟩
    simp only [upstreamScanOutputs]
    rcases List.mem_cons.mp ho' with rfl | ho''
    · rw [if_pos hbid]
      obtain ⟨tl, htl⟩ := upstreamScanOutputs_events s batch_id ev rest
        (scanEntryRefs s ev.id acc.1 ev.inputs, acc.2 ++ [ev])
      rw [htl]
      simp
    · split
      · exact ih _ ⟨o', ho'', hbid⟩
      · exact ih acc ⟨o', ho'', hbid⟩

/-- The upstream event loop only appends to the collected event list. -/
theorem upstreamScan_events (s : Store) (batch_id : String) :
    ∀ (evts : List EventDoc) (acc : List TraceEntry × List EventDoc),
      ∃ tl, (upstreamScan s batch_id acc evts).2 = acc.2 ++ tl := by
  intro evts
  induction evts with
  | nil => intro acc; exact ⟨[], (List.append_nil _).symm⟩
  | cons ev rest ih =>
    intro acc
    simp only [upstreamScan]
    obtain ⟨tl1, h1⟩ := upstreamScanOutputs_events s batch_id ev ev.outputs
      acc
    obtain ⟨tl2, h2⟩ := ih (upstreamScanOutputs s batch_id ev acc ev.outputs)
    exact ⟨tl1 ++ tl2, by rw [h2, h1, List.append_assoc]⟩

/-- Every event of the log with an output matching the traced batch ends up
in the upstream event loop's collection. -/
theorem upstreamScan_collects (s : Store) (batch_id : String) :
    ∀ (evts : List EventDoc) (acc : List TraceEntry × List EventDoc)
      (ev : EventDoc), ev ∈ evts →
      (∃ o ∈ ev.outputs, o.batch_id = some batch_id) →
      ev ∈ (upstreamScan s batch_id acc evts).2 := by
  intro evts
  induction evts with
  | nil => intro acc ev hev; simp at hev
  | cons e0 rest ih =>
    intro acc ev hev hout
    simp only [upstreamScan]
    rcases List.mem_cons.mp hev with rfl | hev'
    · have hmem := upstreamScanOutputs_collects s batch_id ev ev.outputs acc
        hout
      obtain ⟨tl, htl⟩ := upstreamScan_events s batch_id rest
        (upstreamScanOutputs s batch_id ev acc ev.outputs)
      rw [htl]
      exact List.mem_append.mpr (Or.inl hmem)
    · exact ih _ ev hev' hout

/-- The downstream input scan only appends to the collected event list. -/
theorem downstreamScanInputs_events (s : Store) (batch_id : String)
    (ev : EventDoc) :
    ∀ (inps : List InputRef) (acc : List TraceEntry × List EventDoc),
      ∃ tl, (downstreamScanInputs s batch_id ev acc inps).2 =
        acc.2 ++ tl := by
  intro inps
  induction inps with
  | nil => intro acc; exact ⟨[], (List.append_nil _).symm⟩
  | cons i rest ih =>
    intro acc
    simp only [downstreamScanInputs]
    split
    · obtain ⟨tl, htl⟩ := ih (scanEntryRefsOut s ev.id acc.1 ev.outputs,
        acc.2 ++ [ev])
      exact ⟨[ev] ++ tl, by simp [htl]⟩
    · exact ih acc

/-- An event one of whose inputs matches the traced batch is collected by
the downstream input scan. -/
theorem downstreamScanInputs_collects (s : Store) (batch_id : String)
    (ev : EventDoc) :
    ∀ (inps : List InputRef) (acc : List TraceEntry × List EventDoc),
      (∃ i ∈ inps, i.batch_id = some batch_id) →
      ev ∈ (downstreamScanInputs s batch_id ev acc inps).2 := by
  intro inps
  induction inps with
  | nil => intro acc h; simp at h
  | cons i rest ih =>
    intro acc ⟨i', hi', hbid⟩
    simp only [downstreamScanInputs]
    rcases List.mem_cons.mp hi' with rfl | hi''
    · rw [if_pos hbid]
      obtain ⟨tl, htl⟩ := downstreamScanInputs_events s batch_id ev rest
        (scanEntryRefsOut s ev.id acc.1 ev.outputs, acc.2 ++ [ev])
      rw [htl]
      simp
    · split
      · exact ih _ ⟨i', hi'', hbid⟩
      · exact ih acc ⟨i', hi'', hbid⟩

/-- The downstream event loop only appends to the collected event list. -/
theorem downstreamScan_events (s : Store) (batch_id : String) :
    ∀ (evts : List EventDoc) (acc : List TraceEntry × List EventDoc),
      ∃ tl, (downstreamScan s batch_id acc evts).2 = acc.2 ++ tl := by
  intro evts
  induction evts with
  | nil => intro acc; exact ⟨[], (List.append_nil _).symm⟩
  | cons ev rest ih =>
    intro acc
    simp only [downstreamScan]
    obtain ⟨tl1, h1⟩ := downstreamScanInputs_events s batch_id ev ev.inputs
      acc
    obtain ⟨tl2, h2⟩ := ih (downstreamScanInputs s batch_id ev acc ev.inputs)
    exact ⟨tl1 ++ tl2, by rw [h2, h1, List.append_assoc]⟩

/-- Every event of the log with an input matching the traced batch ends up
in the downstream event loop's collection. -/
theorem downstreamScan_collects (s : Store) (batch_id : String) :
    ∀ (evts : List EventDoc) (acc : List TraceEntry × List EventDoc)
      (ev : EventDoc), ev ∈ evts →
      (∃ i ∈ ev.inputs, i.batch_id = some batch_id) →
      ev ∈ (downstreamScan s batch_id acc evts).2 := by
  intro evts
  induction evts with
  | nil => intro acc ev hev; simp at hev
  | cons e0 rest ih =>
    intro acc ev hev hin
    simp only [downstreamScan]
    rcases List.mem_cons.mp hev with rfl | hev'
    · have hmem := downstreamScanInputs_collects s batch_id ev ev.inputs acc
        hin
      obtain ⟨tl, htl⟩ := downstreamScan_events s batch_id rest
        (downstreamScanInputs s batch_id ev acc ev.inputs)
      rw [htl]
      exact List.mem_append.mpr (Or.inl hmem)
    · exact ih _ ev hev' hin

/-- The dedup pass keeps, for every collected event, some event with the
same id (unless the id was already seen). -/
theorem dedupEventsById_mem :
    ∀ (seen : List String) (l : List EventDoc) (e : EventDoc), e ∈ l →
      (∃ d ∈ dedupEventsById seen l, d.id = e.id) ∨
      seen.contains e.id = true := by
  intro seen l
  induction l generalizing seen with
  | nil => intro e he; simp at he
  | cons x rest ih =>
    intro e he
    simp only [dedupEventsById]
    rcases List.mem_cons.mp he with rfl | he'
    · by_cases hc : seen.contains e.id = true
      · exact Or.inr hc
      · rw [if_neg hc]
        exact Or.inl ⟨e, by simp, rfl⟩
    · by_cases hc : seen.contains x.id = true
      · rw [if_pos hc]
        exact ih seen e he'
      · rw [if_neg hc]
        rcases ih (seen ++ [x.id]) e he' with ⟨d, hd, hid⟩ | hseen
        · exact Or.inl ⟨d, by simp [hd], hid⟩
        · rw [contains_iff_mem] at hseen
          rcases List.mem_append.mp hseen with h1 | h2
          · exact Or.inr ((contains_iff_mem _ _).mpr h1)
          · left
            refine ⟨x, by simp, ?_⟩
            have : e.id = x.id := by simpa using h2
            exact this.symm

end VeriBatch

namespace VeriBatch

/-- The final dedup pass over concatenated collections keeps a
representative of every collected event id. -/
theorem dedup_append_byId (l1 l2 : List EventDoc) (i : String)
    (h : ∃ x, (x ∈ l1 ∨ x ∈ l2) ∧ x.id = i) :
    ∃ d ∈ dedupEventsById [] (l1 ++ l2), d.id = i := by
  obtain ⟨x, hx, hxi⟩ := h
  rcases dedupEventsById_mem [] (l1 ++ l2) x (List.mem_append.mpr hx) with
    ⟨d, hd, hdi⟩ | habs
  · exact ⟨d, hd, hdi.trans hxi⟩
  · simp at habs

/-- C10: the upstream/downstream lists of `get_batch_traceability` contain
only batch ids with an existing batch record (references to missing batches
are silently omitted), while every event referencing the traced batch still
appears, by id, in the events list. -/
theorem C10_trace_lists_only_existing_batches (s : Store)
    (batch_id direction : String) :
    (∀ e ∈ (get_batch_traceability s batch_id direction).upstream,
      (getBatch s e.batch_id).isSome = true) ∧
    (∀ e ∈ (get_batch_traceability s batch_id direction).downstream,
      (getBatch s e.batch_id).isSome = true) ∧
    ((direction = "upstream" ∨ direction = "both") →
      ∀ ev ∈ s.events, (∃ o ∈ ev.outputs, o.batch_id = some batch_id) →
      ∃ d ∈ (get_batch_traceability s batch_id direction).events,
        d.id = ev.id) ∧
    ((direction = "downstream" ∨ direction = "both") →
      ∀ ev ∈ s.events, (∃ i ∈ ev.inputs, i.batch_id = some batch_id) →
      ∃ d ∈ (get_batch_traceability s batch_id direction).events,
        d.id = ev.id) := by
  refine ⟨?_, ?_, ?_, ?_⟩
  · intro e he
    simp only [get_batch_traceability] at he
    split at he
    · rcases upstreamScan_mem s batch_id s.events ([], []) e he with h | h
      · simp at h
      · exact h
    · simp at he
  · intro e he
    simp only [get_batch_traceability] at he
    split at he
    · rcases downstreamScan_mem s batch_id s.events ([], []) e he with h | h
      · simp at h
      · exact h
    · simp at he
  · intro hdir ev hev hout
    have hcol := upstreamScan_collects s batch_id s.events ([], []) ev hev
      hout
    simp only [get_batch_traceability, if_pos hdir]
    exact dedup_append_byId _ _ ev.id ⟨ev, Or.inl hcol, rfl⟩
  · intro hdir ev hev hin
    have hcol := downstreamScan_collects s batch_id s.events ([], []) ev hev
      hin
    simp only [get_batch_traceability, if_pos hdir]
    by_cases hc : ((if direction = "upstream" ∨ direction = "both" then
        upstreamScan s batch_id ([], []) s.events
      else ([], [])).2.map (fun e => e.id)).contains ev.id = true
    · rw [contains_iff_mem] at hc
      obtain ⟨e1, he1, hid1⟩ := List.mem_map.mp hc
      exact dedup_append_byId _ _ ev.id ⟨e1, Or.inl he1, hid1⟩
    · refine dedup_append_byId _ _ ev.id ⟨ev, Or.inr ?_, rfl⟩
      exact List.mem_filter.mpr ⟨hcol, by simpa using hc⟩
end VeriBatch

namespace VeriBatch

/-- A store where event `e1` consumes a batch id `GONE` that has no batch
record and produces the existing batch `B`. -/
def missingRefStore : Store :=
  ⟨[mkBatch "B" 5 "active"],
   [⟨"e1", "processing", "T", [⟨some "GONE", some (kgQ 1)⟩],
     [⟨some "B", none, some (kgQ 1)⟩], none, none, none⟩]⟩

/-- C10 witness: tracing `B` in `missingRefStore`, the event `e1` appears in
the events list even though its input references the missing batch `GONE`,
which is silently omitted from the upstream list. -/
theorem C10_witness :
    (∃ d ∈ (get_batch_traceability missingRefStore "B" "both").events,
      d.id = "e1") ∧
    (get_batch_traceability missingRefStore "B" "both").upstream = [] :=
  ⟨(C10_trace_lists_only_existing_batches missingRefStore "B" "both").2.2.1
    (Or.inr rfl)
    ⟨"e1", "processing", "T", [⟨some "GONE", some (kgQ 1)⟩],
     [⟨some "B", none, some (kgQ 1)⟩], none, none, none⟩
    (by simp [missingRefStore])
    ⟨⟨some "B", none, some (kgQ 1)⟩, by simp, rfl⟩,
   by rfl⟩

end VeriBatch

namespace VeriBatch

/-! ## C5 helpers: the recording operations only append to the event log -/

/-- The deduction step never touches the event log. -/
theorem events_deductOne (s : Store) (i : InputRef) :
    (deductOne s i).events = s.events := by
  unfold deductOne
  cases i.batch_id with
  | none => rfl
  | some bid =>
    cases i.amount with
    | none => rfl
    | some used =>
      simp only []
      split
      · rfl
      · split
        · rfl
        · cases getBatch s bid with
          | none => rfl
          | some b =>
            simp only []
            cases b.quantity with
            | none => rfl
            | some cur =>
              simp only []
              split
              · rfl
              · split
                · split
                  · rw [events_update_batch_status,
                      events_update_batch_details]
                  · rw [events_update_batch_details]
                · rfl

/-- The deduction loop never touches the event log. -/
theorem events_deductInputs (inputs : List InputRef) :
    ∀ s : Store, (deductInputs s inputs).events = s.events := by
  induction inputs with
  | nil => intro s; rfl
  | cons i rest ih =>
    intro s
    show (deductInputs (deductOne s i) rest).events = s.events
    rw [ih, events_deductOne]

/-- The processing output-creation loop never touches the event log. -/
theorem events_createProcessingOutputs (timestamp : String)
    (location_id : Option String) :
    ∀ (outs : List OutputSpec) (s : Store),
      (createProcessingOutputs s timestamp location_id outs).2.events =
        s.events := by
  intro outs
  induction outs with
  | nil => intro s; rfl
  | cons o rest ih =>
    intro s
    simp only [createProcessingOutputs]
    cases o.batch_id with
    | none => exact ih s
    | some bid =>
      simp only []
      split
      · exact ih s
      · split
        · exact ih s
        · split
          · rfl
          · split
            · rfl
            · rename_i qobj hq s' hcb
              rw [ih]
              exact (create_batch_ok_inv hcb).2.1

/-- The split output-creation loop never touches the event log. -/
theorem events_createSplitOutputs (source_batch : Batch)
    (location_id : Option String) :
    ∀ (outs : List OutputSpec) (s : Store),
      (createSplitOutputs s source_batch location_id outs).2.events =
        s.events := by
  intro outs
  induction outs with
  | nil => intro s; rfl
  | cons o rest ih =>
    intro s
    simp only [createSplitOutputs]
    cases o.batch_id with
    | none => exact ih s
    | some bid =>
      simp only []
      split
      · exact ih s
      · split
        · rfl
        · rename_i b' s' hcb
          rw [ih]
          exact (create_batch_ok_inv hcb).2.1

/-- Marking a list of sources depleted never touches the event log. -/
theorem events_depleteFold (bids : List String) :
    ∀ s : Store,
      (bids.foldl (fun t bid => (update_batch_status t bid "depleted").2)
        s).events = s.events := by
  induction bids with
  | nil => intro s; rfl
  | cons bid rest ih =>
    intro s
    show (rest.foldl _ (update_batch_status s bid "depleted").2).events =
      s.events
    rw [ih, events_update_batch_status]

/-- `insertEvent` either appends the event or (duplicate id) leaves the log
unchanged. -/
theorem events_insertEvent (s : Store) (ev : EventDoc) :
    ∃ tl, (insertEvent s ev).2.events = s.events ++ tl := by
  unfold insertEvent
  split
  · exact ⟨[], (List.append_nil _).symm⟩
  · exact ⟨[ev], rfl⟩

end VeriBatch

namespace VeriBatch

/-- An event update that does not supply `inputs`/`outputs` preserves both
arrays. -/
theorem applyEventUpdate_preserves (data : EventUpdate) (e : EventDoc)
    (hin : data.inputs = none) (hout : data.outputs = none) :
    (applyEventUpdate data e).inputs = e.inputs ∧
    (applyEventUpdate data e).outputs = e.outputs := by
  unfold applyEventUpdate
  rw [hin, hout]
  cases data.timestamp <;> cases data.notes <;> exact ⟨rfl, rfl⟩

/-- The event stored for an update: the original original store row with the
supplied fields applied. -/
theorem update_event_events (s : Store) (event_id : String)
    (data : EventUpdate) :
    ∀ e' ∈ (update_event s event_id data).2.events,
      ∃ e ∈ s.events, e' = e ∨ e' = applyEventUpdate data e := by
  intro e' he'
  unfold update_event at he'
  cases hge : getEvent s event_id with
  | none => rw [hge] at he'; exact ⟨e', he', Or.inl rfl⟩
  | some e0 =>
    rw [hge] at he'
    simp only [] at he'
    obtain ⟨e, he, heq⟩ := List.mem_map.mp he'
    by_cases hid : e.id = event_id
    · exact ⟨e, he, Or.inr (by rw [← heq, if_pos hid])⟩
    · exact ⟨e, he, Or.inl (by rw [← heq, if_neg hid])⟩

/-- C5 (as amended): the event-recording operations
(`record_processing_event`, `split_batch`, `merge_batches`,
`dispose_batch`) never modify an existing Event — each leaves the event log
equal to the original log plus appended records — while `update_event`
preserves a stored event's `inputs` and `outputs` exactly when its payload
does not supply those fields (metadata-only corrections such as notes or
timestamp). -/
theorem C5_event_log_append_only :
    (∀ (s : Store) (eid : String) (pid : Option String)
      (ins : List InputRef) (outs : List OutputSpec)
      (loc nts : Option String) (ts : String),
      ∃ tl, (record_processing_event s eid pid ins outs loc nts ts).2.events
        = s.events ++ tl) ∧
    (∀ (s : Store) (eid src : String) (outs : List OutputSpec)
      (loc nts : Option String) (ts : String),
      ∃ tl, (split_batch s eid src outs loc nts ts).2.events =
        s.events ++ tl) ∧
    (∀ (s : Store) (eid : String) (srcs : List String) (ob : String)
      (oq : QuantityDoc) (loc nts : Option String) (ts : String),
      ∃ tl, (merge_batches s eid srcs ob oq loc nts ts).2.events =
        s.events ++ tl) ∧
    (∀ (s : Store) (eid bid reason : String) (loc nts : Option String)
      (ts : String),
      ∃ tl, (dispose_batch s eid bid reason loc nts ts).2.events =
        s.events ++ tl) ∧
    (∀ (s : Store) (eid : String) (data : EventUpdate),
      data.inputs = none → data.outputs = none →
      ∀ e' ∈ (update_event s eid data).2.events,
        ∃ e ∈ s.events, e'.inputs = e.inputs ∧ e'.outputs = e.outputs) := by
  refine ⟨?_, ?_, ?_, ?_, ?_⟩
  · intro s eid pid ins outs loc nts ts
    unfold record_processing_event
    cases validate_production_inputs s ins with
    | error e => exact ⟨[], (List.append_nil _).symm⟩
    | ok _ =>
      simp only []
      cases hc : createProcessingOutputs (deductInputs s ins) ts loc outs
        with
      | mk r s2 =>
        have hs2 : s2.events = s.events := by
          have := events_createProcessingOutputs ts loc outs
            (deductInputs s ins)
          rw [hc] at this
          rw [this, events_deductInputs]
        cases r with
        | error e => exact ⟨[], by simp [hs2]⟩
        | ok _ =>
          simp only []
          obtain ⟨tl, htl⟩ := events_insertEvent s2 _
          exact ⟨tl, by rw [htl, hs2]⟩
  · intro s eid src outs loc nts ts
    unfold split_batch
    cases validate_split_quantities s src outs with
    | error e => exact ⟨[], (List.append_nil _).symm⟩
    | ok _ =>
      simp only []
      cases hgb : getBatch s src with
      | none => exact ⟨[], (List.append_nil _).symm⟩
      | some source_batch =>
        simp only []
        cases hc : createSplitOutputs s source_batch loc outs with
        | mk r s1 =>
          have hs1 : s1.events = s.events := by
            have := events_createSplitOutputs source_batch loc outs s
            rw [hc] at this
            exact this
          cases r with
          | error e => exact ⟨[], by simp [hs1]⟩
          | ok _ =>
            simp only []
            obtain ⟨tl, htl⟩ := events_insertEvent
              (update_batch_status s1 src "depleted").2 _
            exact ⟨tl, by rw [htl, events_update_batch_status, hs1]⟩
  · intro s eid srcs ob oq loc nts ts
    unfold merge_batches
    cases validate_merge_quantities s srcs oq with
    | error e => exact ⟨[], (List.append_nil _).symm⟩
    | ok _ =>
      simp only []
      cases collectMergeSources s srcs [] none with
      | error e => exact ⟨[], (List.append_nil _).symm⟩
      | ok p =>
        cases p with
        | mk source_batches item_id =>
          simp only []
          cases hcb : create_batch s ob item_id
              (some ⟨oq.amount.getD 0, oq.unit.getD "unit"⟩) "active"
              (some (dateOfTimestamp ts)) none (some "merged") loc with
          | error e => exact ⟨[], (List.append_nil _).symm⟩
          | ok q =>
            cases q with
            | mk b s1 =>
              simp only []
              obtain ⟨tl, htl⟩ := events_insertEvent
                (srcs.foldl (fun t bid =>
                  (update_batch_status t bid "depleted").2) s1) _
              refine ⟨tl, ?_⟩
              rw [htl, events_depleteFold, (create_batch_ok_inv hcb).2.1]
  · intro s eid bid reason loc nts ts
    unfold dispose_batch
    cases getBatch s bid with
    | none => exact ⟨[], (List.append_nil _).symm⟩
    | some b =>
      simp only []
      exact ⟨_, by rw [events_update_batch_status]⟩
  · intro s eid data hin hout e' he'
    obtain ⟨e, he, heq⟩ := update_event_events s eid data e' he'
    rcases heq with heq | heq
    · exact ⟨e, he, by rw [heq], by rw [heq]⟩
    · obtain ⟨h1, h2⟩ := applyEventUpdate_preserves data e hin hout
      exact ⟨e, he, by rw [heq, h1], by rw [heq, h2]⟩

/-- C5 counterexample: `update_event` called with an `inputs` field rewrites
the stored event's inputs — the claim that later corrections can change only
metadata is false on the code. -/
theorem C5_counterexample :
    (getEvent (update_event
        ⟨[], [⟨"e1", "processing", "T", [⟨some "X", some (kgQ 1)⟩], [],
          none, none, none⟩]⟩ "e1"
        { inputs := some [⟨some "Y", some (kgQ 2)⟩] }).2 "e1").map
      (fun e => e.inputs) = some [⟨some "Y", some (kgQ 2)⟩] ∧
    ([⟨some "Y", some (kgQ 2)⟩] : List InputRef) ≠
      [⟨some "X", some (kgQ 1)⟩] := by
  exact ⟨rfl, by decide⟩

/-- The stored event used by the C5 witness. -/
def origEvt : EventDoc :=
  ⟨"e1", "processing", "T", [⟨some "X", some (kgQ 1)⟩], [], none, none,
   none⟩

/-- C5 witness: an update supplying only notes preserves the recorded
inputs and outputs of the stored event. -/
theorem C5_witness :
    ∃ e ∈ (⟨[], [origEvt]⟩ : Store).events,
      (applyEventUpdate { notes := some "corrected" } origEvt).inputs =
        e.inputs ∧
      (applyEventUpdate { notes := some "corrected" } origEvt).outputs =
        e.outputs :=
  C5_event_log_append_only.2.2.2.2 ⟨[], [origEvt]⟩ "e1"
    { notes := some "corrected" } rfl rfl
    (applyEventUpdate { notes := some "corrected" } origEvt)
    (by simp [update_event, getEvent, origEvt])

end VeriBatch

namespace VeriBatch

/-- Replacing the event log does not affect batch lookups. -/
theorem getBatch_set_events (s : Store) (E : List EventDoc) (id : String) :
    getBatch { s with events := E } id = getBatch s id := rfl

/-- C6 (against the spec-modelled `dispose_batch`): on an existing batch the
operation sets its status to `disposed` and appends a `disposal` event whose
single input carries the batch's recorded quantity and whose notes read
`"Reason: {reason}. {notes}"`; on a missing batch id it raises `ValueError`
and changes nothing. -/
theorem C6_dispose_batch_spec (s : Store)
    (event_id batch_id reason : String) (loc notes : Option String)
    (ts : String) :
    (∀ b, getBatch s batch_id = some b →
      (dispose_batch s event_id batch_id reason loc notes ts).1 =
        .ok ⟨event_id, "disposal", ts, [⟨some batch_id, b.quantity⟩], [],
          some ("Reason: " ++ reason ++ ". " ++ notes.getD ""), loc, none⟩ ∧
      getBatch (dispose_batch s event_id batch_id reason loc notes
        ts).2 batch_id = some { b with status := "disposed" } ∧
      (dispose_batch s event_id batch_id reason loc notes ts).2.events =
        s.events ++ [⟨event_id, "disposal", ts,
          [⟨some batch_id, b.quantity⟩], [],
          some ("Reason: " ++ reason ++ ". " ++ notes.getD ""), loc,
          none⟩]) ∧
    (getBatch s batch_id = none →
      (∃ m, (dispose_batch s event_id batch_id reason loc notes ts).1 =
        .error (.valueErr m)) ∧
      (dispose_batch s event_id batch_id reason loc notes ts).2 = s) := by
  constructor
  · intro b hb
    unfold dispose_batch
    rw [hb]
    refine ⟨rfl, ?_, ?_⟩
    · simp only [getBatch_set_events]
      rw [getBatch_update_batch_status, if_pos rfl, hb]
      rfl
    · simp only [events_update_batch_status]
  · intro hb
    unfold dispose_batch
    rw [hb]
    exact ⟨⟨_, rfl⟩, rfl⟩

/-- C6 witness: disposing the active 10 kg batch `src` for reason
`"expired"`. -/
theorem C6_witness :
    (dispose_batch activeStore "ev1" "src" "expired" none (some "old")
      "T").1 =
      .ok ⟨"ev1", "disposal", "T", [⟨some "src", some (kgQ 10)⟩], [],
        some "Reason: expired. old", none, none⟩ ∧
    getBatch (dispose_batch activeStore "ev1" "src" "expired" none
      (some "old") "T").2 "src" =
      some { mkBatch "src" 10 "active" with status := "disposed" } ∧
    (dispose_batch activeStore "ev1" "src" "expired" none (some "old")
      "T").2.events =
      activeStore.events ++ [⟨"ev1", "disposal", "T",
        [⟨some "src", some (kgQ 10)⟩], [], some "Reason: expired. old",
        none, none⟩] :=
  (C6_dispose_batch_spec activeStore "ev1" "src" "expired" none
    (some "old") "T").1 (mkBatch "src" 10 "active") (by rfl)

end VeriBatch

namespace VeriBatch

/-! ## C9: non-negativity of stored quantities -/

/-- Every stored batch quantity that carries an amount is non-negative. -/
def StoreNonneg (s : Store) : Prop :=
  ∀ b ∈ s.batches, ∀ qd, b.quantity = some qd → ∀ a, qd.amount = some a →
    0 ≤ a

/-- Rows after an in-place first-match update come from the original list,
possibly with the update applied. -/
theorem mem_updateFirstBatch (bid : String) (f : Batch → Batch) :
    ∀ (l : List Batch) (b' : Batch), b' ∈ updateFirstBatch l bid f →
      b' ∈ l ∨ ∃ b ∈ l, b' = f b := by
  intro l
  induction l with
  | nil => intro b' h; simp [updateFirstBatch] at h
  | cons b rest ih =>
    intro b' h
    simp only [updateFirstBatch] at h
    split at h
    · rcases List.mem_cons.mp h with rfl | h'
      · exact Or.inr ⟨b, by simp, rfl⟩
      · exact Or.inl (List.mem_cons.mpr (Or.inr h'))
    · rcases List.mem_cons.mp h with rfl | h'
      · exact Or.inl (by simp)
      · rcases ih b' h' with h1 | ⟨b0, hb0, rfl⟩
        · exact Or.inl (List.mem_cons.mpr (Or.inr h1))
        · exact Or.inr ⟨b0, List.mem_cons.mpr (Or.inr hb0), rfl⟩

/-- `update_batch_status` preserves non-negativity (it never touches
quantities). -/
theorem nonneg_update_batch_status (s : Store) (bid st : String)
    (h : StoreNonneg s) : StoreNonneg (update_batch_status s bid st).2 := by
  unfold update_batch_status
  cases hgb : getBatch s bid with
  | none => exact h
  | some b0 =>
    intro b' hb' qd hqd a ha
    rcases mem_updateFirstBatch bid _ s.batches b' hb' with h1 | ⟨b1, hb1, rfl⟩
    · exact h b' h1 qd hqd a ha
    · exact h b1 hb1 qd hqd a ha

/-- The deduction step preserves non-negativity: it only ever writes
`max 0 (current - used)`. -/
theorem nonneg_deductOne (s : Store) (i : InputRef) (h : StoreNonneg s) :
    StoreNonneg (deductOne s i) := by
  unfold deductOne
  cases i.batch_id with
  | none => exact h
  | some bid =>
    cases i.amount with
    | none => exact h
    | some used =>
      simp only []
      split
      · exact h
      · split
        · exact h
        · cases hgb : getBatch s bid with
          | none => exact h
          | some b =>
            simp only []
            cases hq : b.quantity with
            | none => exact h
            | some cur =>
              simp only []
              split
              · exact h
              · split
                · have hdet : StoreNonneg (update_batch_details s bid
                      { quantity := some (some ⟨some (max 0
                        (cur.amount.getD 0 - used.amount.getD 0)),
                        cur.unit⟩) }).2 := by
                    unfold update_batch_details
                    cases hgb2 : getBatch s bid with
                    | none => exact h
                    | some b2 =>
                      intro b' hb' qd hqd a ha
                      rcases mem_updateFirstBatch bid _ s.batches b' hb'
                        with h1 | ⟨b1, hb1, rfl⟩
                      · exact h b' h1 qd hqd a ha
                      · simp only [applyBatchUpdate] at hqd
                        have hqd2 : (⟨some (max 0 (cur.amount.getD 0 -
                            used.amount.getD 0)), cur.unit⟩ :
                            QuantityDoc) = qd := Option.some.inj hqd
                        subst hqd2
                        have ha2 : some (max 0 (cur.amount.getD 0 -
                            used.amount.getD 0)) = some a := ha
                        cases Option.some.inj ha2
                        exact le_max_left 0 _
                  split
                  · exact nonneg_update_batch_status _ _ _ hdet
                  · exact hdet
                · exact h

/-- `insertEvent` does not touch the batch rows. -/
theorem batches_insertEvent (s : Store) (ev : EventDoc) :
    (insertEvent s ev).2.batches = s.batches := by
  unfold insertEvent
  split <;> rfl

/-- The deduction loop preserves non-negativity. -/
theorem nonneg_deductInputs (inputs : List InputRef) :
    ∀ s : Store, StoreNonneg s → StoreNonneg (deductInputs s inputs) := by
  induction inputs with
  | nil => intro s h; exact h
  | cons i rest ih =>
    intro s h
    exact ih (deductOne s i) (nonneg_deductOne s i h)

/-- A successful `create_batch` preserves non-negativity: the new row's
quantity was validated. -/
theorem nonneg_create_batch {s : Store} {batch_id : String}
    {item_id : Option String} {quantity : Option Quantity} {status : String}
    {pd ed ok loc : Option String} {b : Batch} {s' : Store}
    (hcb : create_batch s batch_id item_id quantity status pd ed ok loc =
      .ok (b, s')) (h : StoreNonneg s) : StoreNonneg s' := by
  obtain ⟨hbat, _, _, _, _, hq, _, hval⟩ := create_batch_ok_inv hcb
  intro b' hb' qd hqd a ha
  rw [hbat] at hb'
  rcases List.mem_append.mp hb' with h1 | h2
  · exact h b' h1 qd hqd a ha
  · have hb : b' = b := by simpa using h2
    subst hb
    rw [hq] at hqd
    cases quantity with
    | none => simp at hqd
    | some q =>
      have hqd2 : (⟨some q.amount, some q.unit⟩ : QuantityDoc) = qd :=
        Option.some.inj hqd
      subst hqd2
      have ha2 : some q.amount = some a := ha
      cases Option.some.inj ha2
      exact hval q rfl

/-- The processing output-creation loop preserves non-negativity, whatever
its outcome. -/
theorem nonneg_createProcessingOutputs (timestamp : String)
    (location_id : Option String) :
    ∀ (outs : List OutputSpec) (s : Store), StoreNonneg s →
      StoreNonneg (createProcessingOutputs s timestamp location_id
        outs).2 := by
  intro outs
  induction outs with
  | nil => intro s h; exact h
  | cons o rest ih =>
    intro s h
    simp only [createProcessingOutputs]
    cases o.batch_id with
    | none => exact ih s h
    | some bid =>
      simp only []
      split
      · exact ih s h
      · split
        · exact ih s h
        · split
          · exact h
          · split
            · exact h
            · rename_i qobj hq s' hcb
              exact ih s' (nonneg_create_batch hcb h)

/-- C9 (as amended): `create_batch` and the whole of
`record_processing_event` (including its input-deduction step, which writes
`max 0 (current - used)`) preserve the invariant that every stored batch
amount is non-negative. -/
theorem C9_quantity_nonneg_preserved :
    (∀ (s : Store) (batch_id : String) (item_id : Option String)
      (quantity : Option Quantity) (status : String)
      (pd ed ok loc : Option String) (b : Batch) (s' : Store),
      create_batch s batch_id item_id quantity status pd ed ok loc =
        .ok (b, s') → StoreNonneg s → StoreNonneg s') ∧
    (∀ (s : Store) (eid : String) (pid : Option String)
      (ins : List InputRef) (outs : List OutputSpec)
      (loc nts : Option String) (ts : String), StoreNonneg s →
      StoreNonneg (record_processing_event s eid pid ins outs loc nts
        ts).2) := by
  constructor
  · intro s batch_id item_id quantity status pd ed ok loc b s' hcb h
    exact nonneg_create_batch hcb h
  · intro s eid pid ins outs loc nts ts h
    unfold record_processing_event
    cases validate_production_inputs s ins with
    | error e => exact h
    | ok _ =>
      simp only []
      have h1 := nonneg_deductInputs ins s h
      cases hc : createProcessingOutputs (deductInputs s ins) ts loc outs
        with
      | mk r s2 =>
        have h2 : StoreNonneg s2 := by
          have := nonneg_createProcessingOutputs ts loc outs
            (deductInputs s ins) h1
          rw [hc] at this
          exact this
        cases r with
        | error e => exact h2
        | ok _ =>
          simp only []
          intro b' hb' qd hqd a ha
          rw [batches_insertEvent] at hb'
          exact h2 b' hb' qd hqd a ha

/-- C9 counterexample: `update_batch_details` stores a supplied negative
quantity verbatim — after the update the batch's amount is `-5`. -/
theorem C9_counterexample :
    (getBatch (update_batch_details activeStore "src"
        { quantity := some (some ⟨some (-5), some "kg"⟩) }).2 "src").map
      (fun b => b.quantity) = some (some ⟨some (-5), some "kg"⟩) ∧
    ((-5 : ℚ) < 0) := by
  exact ⟨rfl, by norm_num⟩

/-- C9 witness: on the singleton active store, recording a processing event
that consumes 3 kg of `src` keeps every stored amount non-negative. -/
theorem C9_witness :
    StoreNonneg (record_processing_event activeStore "ev1" none
      [⟨some "src", some (kgQ 3)⟩] [] none none "T").2 :=
  C9_quantity_nonneg_preserved.2 activeStore "ev1" none
    [⟨some "src", some (kgQ 3)⟩] [] none none "T"
    (by
      intro b hb qd hqd a ha
      simp only [activeStore, mkBatch, kgQ, List.mem_singleton] at hb
      subst hb
      simp only [] at hqd
      cases hqd
      simp only [kgQ] at ha
      cases ha
      norm_num)

end VeriBatch

namespace VeriBatch

/-! ## C2 helpers: split conservation -/

/-- The amount an output spec contributes (missing keys default to 0). -/
def splitOutputAmount (o : OutputSpec) : ℚ :=
  (o.amount.getD ⟨none, none⟩).amount.getD 0

/-- The unit an output spec resolves to (defaulting to the source unit). -/
def splitOutputUnit (su : String) (o : OutputSpec) : String :=
  (o.amount.getD ⟨none, none⟩).unit.getD su

/-- When every output resolves to the source unit, the unit-check-and-sum
loop returns the total of the resolved amounts. -/
theorem splitOutputsTotal_ok (su : String) :
    ∀ outs : List OutputSpec, (∀ o ∈ outs, splitOutputUnit su o = su) →
      splitOutputsTotal su outs = .ok ((outs.map splitOutputAmount).sum) := by
  intro outs
  induction outs with
  | nil => intro h; rfl
  | cons o rest ih =>
    intro h
    have ho := h o (by simp)
    simp only [splitOutputsTotal]
    rw [if_neg (by simpa [splitOutputUnit] using ho)]
    rw [ih (fun o' ho' => h o' (by simp [ho']))]
    simp [splitOutputAmount]

/-- `validate_split_quantities` on a tracked source whose outputs all use
the source unit reduces to the 1%-tolerance check. -/
theorem validate_split_spec (s : Store) (source_batch_id : String)
    (outs : List OutputSpec) (sb : Batch) (sq : QuantityDoc)
    (hsrc : getBatch s source_batch_id = some sb)
    (hq : sb.quantity = some sq) (htr : qdTruthy sq = true)
    (hunit : ∀ o ∈ outs,
      splitOutputUnit (sq.unit.getD "unit") o = sq.unit.getD "unit") :
    validate_split_quantities s source_batch_id outs =
      if (outs.map splitOutputAmount).sum >
          sq.amount.getD 0 + sq.amount.getD 0 * (1 / 100) then
        .error (.validation "Split outputs exceed source batch quantity")
      else .ok () := by
  unfold validate_split_quantities
  rw [hsrc]
  simp only []
  rw [hq]
  simp only []
  rw [if_neg (by simp [htr])]
  rw [splitOutputsTotal_ok _ outs hunit]

/-- The split output-creation loop succeeds on fresh, pairwise-distinct,
non-negative outputs, creating one `active`/`split` batch per output and
leaving every other batch lookup unchanged. -/
theorem createSplitOutputs_ok (sb : Batch) (loc : Option String) :
    ∀ (outs : List OutputSpec) (t : Store),
      (∀ o ∈ outs, ∃ bid, o.batch_id = some bid ∧ bid ≠ "") →
      (∀ o ∈ outs, ∀ bid, o.batch_id = some bid → getBatch t bid = none) →
      outs.Pairwise (fun a b => a.batch_id ≠ b.batch_id) →
      (∀ o ∈ outs, 0 ≤ splitOutputAmount o) →
      (createSplitOutputs t sb loc outs).1 = .ok () ∧
      (∀ id, (∀ o ∈ outs, o.batch_id ≠ some id) →
        getBatch (createSplitOutputs t sb loc outs).2 id = getBatch t id) ∧
      (∀ o ∈ outs, ∀ bid, o.batch_id = some bid →
        ∃ nb, getBatch (createSplitOutputs t sb loc outs).2 bid = some nb ∧
          nb.status = "active" ∧ nb.origin_kind = some "split" ∧
          nb.item_id = sb.item_id) := by
  intro outs
  induction outs with
  | nil =>
    intro t _ _ _ _
    exact ⟨rfl, fun id _ => rfl, fun o ho => by simp at ho⟩
  | cons o rest ih =>
    intro t hids hfresh hnodup hamt
    obtain ⟨bid, hbid, hbne⟩ := hids o (by simp)
    have hfr : getBatch t bid = none := hfresh o (by simp) bid hbid
    have hcb := @create_batch_ok t bid sb.item_id
      ⟨splitOutputAmount o, splitOutputUnit
        (((sb.quantity.getD ⟨none, none⟩).unit).getD "unit") o⟩
      "active" sb.production_date (some "split")
      (pyOrStr loc sb.location_id) (hamt o (by simp)) hfr
    set nb : Batch := ⟨bid, sb.item_id, "active", sb.production_date, none,
      some ⟨some (splitOutputAmount o), some (splitOutputUnit
        (((sb.quantity.getD ⟨none, none⟩).unit).getD "unit") o)⟩,
      some "split", pyOrStr loc sb.location_id⟩ with hnb
    set t' : Store := { t with batches := t.batches ++ [nb] } with ht'
    have hstep : createSplitOutputs t sb loc (o :: rest) =
        createSplitOutputs t' sb loc rest := by
      simp only [createSplitOutputs]
      rw [hbid]
      simp only []
      rw [if_neg hbne]
      rw [show (o.amount.getD ⟨none, none⟩).amount.getD 0 =
        splitOutputAmount o from rfl]
      rw [show (o.amount.getD ⟨none, none⟩).unit.getD
        (((sb.quantity.getD ⟨none, none⟩).unit).getD "unit") =
        splitOutputUnit (((sb.quantity.getD ⟨none, none⟩).unit).getD "unit")
          o from rfl]
      rw [hcb]
    have hrest_fresh : ∀ o' ∈ rest, ∀ bid', o'.batch_id = some bid' →
        getBatch t' bid' = none := by
      intro o' ho' bid' hbid'
      rw [ht', getBatch_append]
      have h1 : getBatch t bid' = none := hfresh o' (by simp [ho']) bid' hbid'
      have h2 : nb.id ≠ bid' := by
        have := (List.pairwise_cons.mp hnodup).1 o' ho'
        rw [hbid, hbid'] at this
        simpa [hnb] using fun hcon => this (by rw [hcon])
      rw [h1, if_neg h2]
      rfl
    obtain ⟨hok, hpres, hcreated⟩ := ih t'
      (fun o' ho' => hids o' (by simp [ho']))
      hrest_fresh (List.pairwise_cons.mp hnodup).2
      (fun o' ho' => hamt o' (by simp [ho']))
    refine ⟨by rw [hstep]; exact hok, ?_, ?_⟩
    · intro id hid
      rw [hstep, hpres id (fun o' ho' => hid o' (by simp [ho']))]
      rw [ht', getBatch_append]
      have h2 : nb.id ≠ id := by
        intro hcon
        exact hid o (by simp) (by rw [hbid, hnb] at *; simp_all)
      rw [if_neg h2]
      cases getBatch t id <;> rfl
    · intro o' ho' bid' hbid'
      rcases List.mem_cons.mp ho' with rfl | ho''
      · have hbid2 : bid' = bid := by
          rw [hbid] at hbid'
          exact (Option.some.inj hbid').symm
        subst hbid2
        have hnotin : ∀ o'' ∈ rest, o''.batch_id ≠ some bid' := by
          intro o'' ho'' hcon
          have := (List.pairwise_cons.mp hnodup).1 o'' ho''
          rw [hbid', hcon] at this
          exact this rfl
        rw [hstep, hpres bid' hnotin, ht', getBatch_append, hfr,
          if_pos (by rw [hnb])]
        exact ⟨nb, rfl, rfl, rfl, rfl⟩
      · rw [hstep]
        exact hcreated o' ho'' bid' hbid'

end VeriBatch

namespace VeriBatch

/-- Event lookup depends only on the event log. -/
theorem getEvent_eq_of_events {s1 s2 : Store} (h : s1.events = s2.events)
    (id : String) : getEvent s1 id = getEvent s2 id := by
  unfold getEvent
  rw [h]

/-- `insertEvent` with a fresh id appends and returns the event. -/
theorem insertEvent_ok (s : Store) (ev : EventDoc)
    (h : getEvent s ev.id = none) :
    insertEvent s ev = (.ok ev, { s with events := s.events ++ [ev] }) := by
  unfold insertEvent
  rw [h]
  rfl

/-- C2 (as amended): for a split of an existing source batch with a tracked
quantity, where every output carries a fresh, non-empty, pairwise-distinct
batch id and a non-negative amount in the source's unit, and the event id is
fresh: if the output total is within `source.amount × 1.01` the operation
succeeds, creates one new `active`/`split` batch per output and depletes the
source; if the total exceeds the tolerance it fails with `ValidationError`
and changes nothing. -/
theorem C2_split_tolerance (s : Store) (event_id source_batch_id : String)
    (outputs : List OutputSpec) (loc nts : Option String) (ts : String)
    (sb : Batch) (sq : QuantityDoc)
    (hsrc : getBatch s source_batch_id = some sb)
    (hq : sb.quantity = some sq) (htr : qdTruthy sq = true)
    (hunit : ∀ o ∈ outputs,
      splitOutputUnit (sq.unit.getD "unit") o = sq.unit.getD "unit")
    (hids : ∀ o ∈ outputs, ∃ bid, o.batch_id = some bid ∧ bid ≠ "")
    (hfresh : ∀ o ∈ outputs, ∀ bid, o.batch_id = some bid →
      getBatch s bid = none)
    (hnodup : outputs.Pairwise (fun a b => a.batch_id ≠ b.batch_id))
    (hamt : ∀ o ∈ outputs, 0 ≤ splitOutputAmount o)
    (hev : getEvent s event_id = none) :
    ((outputs.map splitOutputAmount).sum ≤
        sq.amount.getD 0 * (101 / 100) →
      (split_batch s event_id source_batch_id outputs loc nts ts).1 =
        .ok ⟨event_id, "split", ts, [⟨some source_batch_id, some sq⟩],
          outputs, nts, loc, none⟩ ∧
      (∀ o ∈ outputs, ∀ bid, o.batch_id = some bid →
        ∃ nb, getBatch (split_batch s event_id source_batch_id outputs loc
          nts ts).2 bid = some nb ∧ nb.status = "active" ∧
          nb.origin_kind = some "split" ∧ nb.item_id = sb.item_id) ∧
      getBatch (split_batch s event_id source_batch_id outputs loc nts
        ts).2 source_batch_id = some { sb with status := "depleted" }) ∧
    ((outputs.map splitOutputAmount).sum >
        sq.amount.getD 0 * (101 / 100) →
      (∃ m, (split_batch s event_id source_batch_id outputs loc nts ts).1 =
        .error (.validation m)) ∧
      (split_batch s event_id source_batch_id outputs loc nts ts).2 = s) := by
  have hsu := validate_split_spec s source_batch_id outputs sb sq hsrc hq
    htr hunit
  have hth : sq.amount.getD 0 + sq.amount.getD 0 * (1 / 100) =
      sq.amount.getD 0 * (101 / 100) := by ring
  rw [hth] at hsu
  have hno_src : ∀ o ∈ outputs, o.batch_id ≠ some source_batch_id := by
    intro o ho hcon
    have := hfresh o ho source_batch_id hcon
    rw [hsrc] at this
    exact Option.noConfusion this
  constructor
  · intro hle
    have hval : validate_split_quantities s source_batch_id outputs =
        .ok () := by
      rw [hsu, if_neg (not_lt.mpr hle)]
    unfold split_batch
    rw [hval]
    simp only []
    rw [hsrc]
    simp only []
    cases hc : createSplitOutputs s sb loc outputs with
    | mk r t1 =>
      obtain ⟨hok, hpres, hcreated⟩ := createSplitOutputs_ok sb loc outputs
        s hids hfresh hnodup hamt
      rw [hc] at hok hpres hcreated
      simp only [] at hok
      subst hok
      simp only []
      have hevt1 : t1.events = s.events := by
        have := events_createSplitOutputs sb loc outputs s
        rw [hc] at this
        exact this
      have hevs2 : (update_batch_status t1 source_batch_id "depleted").2.events
          = s.events := by
        rw [events_update_batch_status, hevt1]
      have hgev : getEvent
          (update_batch_status t1 source_batch_id "depleted").2 event_id =
          none := by
        rw [getEvent_eq_of_events hevs2 event_id]
        exact hev
      rw [insertEvent_ok _ _ hgev]
      refine ⟨by rw [← hq], ?_, ?_⟩
      · intro o ho bid hbid
        obtain ⟨nb, hnb, h1, h2, h3⟩ := hcreated o ho bid hbid
        refine ⟨nb, ?_, h1, h2, h3⟩
        rw [getBatch_set_events, getBatch_update_batch_status]
        rw [if_neg ?hne]
        case hne =>
          intro hcon
          exact hno_src o ho (by rw [hbid, hcon])
        exact hnb
      · rw [getBatch_set_events, getBatch_update_batch_status, if_pos rfl]
        rw [hpres source_batch_id hno_src, hsrc]
        rfl
  · intro hgt
    have hval : validate_split_quantities s source_batch_id outputs =
        .error (.validation "Split outputs exceed source batch quantity") :=
      by rw [hsu, if_pos hgt]
    unfold split_batch
    rw [hval]
    exact ⟨⟨_, rfl⟩, rfl⟩

end VeriBatch

namespace VeriBatch

/-- C2 counterexample: splitting the active 10 kg batch into a single output
of −1 kg is within the claimed tolerance (−1 ≤ 10 × 1.01), yet the
operation raises `ValidationError` (from `create_batch`'s quantity
validation) instead of succeeding. -/
theorem C2_counterexample :
    ([(⟨some "b1", none, some ⟨some (-1), some "kg"⟩⟩ : OutputSpec)].map
      splitOutputAmount).sum ≤ (10 : ℚ) * (101 / 100) ∧
    (split_batch activeStore "ev1" "src"
      [⟨some "b1", none, some ⟨some (-1), some "kg"⟩⟩] none none "T").1 =
      .error (.validation "Quantity amount cannot be negative") := by
  constructor
  · norm_num [splitOutputAmount]
  · have hval : validate_split_quantities activeStore "src"
        [⟨some "b1", none, some ⟨some (-1), some "kg"⟩⟩] = .ok () := by
      rw [validate_split_spec activeStore "src" _
        (mkBatch "src" 10 "active") (kgQ 10) rfl rfl (by decide)
        (by decide)]
      rw [if_neg]
      norm_num [splitOutputAmount, kgQ]
    unfold split_batch
    rw [hval]
    rfl

/-- The output specs of the C2 witness: two 5 kg halves. -/
def splitOuts : List OutputSpec :=
  [⟨some "b1", none, some (kgQ 5)⟩, ⟨some "b2", none, some (kgQ 5)⟩]

/-- C2 witness: splitting the active 10 kg batch into two 5 kg halves
succeeds and depletes the source. -/
theorem C2_witness :
    (split_batch activeStore "evS" "src" splitOuts none none "T").1 =
      .ok ⟨"evS", "split", "T", [⟨some "src", some (kgQ 10)⟩], splitOuts,
        none, none, none⟩ ∧
    getBatch (split_batch activeStore "evS" "src" splitOuts none none
      "T").2 "src" =
      some { mkBatch "src" 10 "active" with status := "depleted" } := by
  have H := C2_split_tolerance activeStore "evS" "src" splitOuts none none
    "T" (mkBatch "src" 10 "active") (kgQ 10) rfl rfl (by decide)
    (by decide)
    (by
      intro o ho
      rcases List.mem_cons.mp ho with rfl | ho2
      · exact ⟨"b1", rfl, by decide⟩
      · rcases List.mem_cons.mp ho2 with rfl | h3
        · exact ⟨"b2", rfl, by decide⟩
        · simp at h3)
    (by
      intro o ho bid hbid
      rcases List.mem_cons.mp ho with rfl | ho2
      · cases Option.some.inj hbid; rfl
      · rcases List.mem_cons.mp ho2 with rfl | h3
        · cases Option.some.inj hbid; rfl
        · simp at h3)
    (by decide) (by decide) rfl
  have hle : ((splitOuts.map splitOutputAmount).sum ≤
      (kgQ 10).amount.getD 0 * (101 / 100)) := by
    norm_num [splitOuts, splitOutputAmount, kgQ]
  exact ⟨(H.1 hle).1, (H.1 hle).2.2⟩

end VeriBatch

namespace VeriBatch

/-! ## C3 helpers: merge validation -/

/-- The units of the sources that track a (truthy) quantity, in scan
order. -/
def mergeUnits (s : Store) (ids : List String) : List String :=
  ids.filterMap (fun bid =>
    match getBatch s bid with
    | none => none
    | some b =>
      match b.quantity with
      | none => none
      | some q => if qdTruthy q then some (q.unit.getD "unit") else none)

/-- The total tracked amount of the sources. -/
def mergeTotal (s : Store) (ids : List String) : ℚ :=
  (ids.map (fun bid =>
    match getBatch s bid with
    | none => 0
    | some b =>
      match b.quantity with
      | none => 0
      | some q => if qdTruthy q then q.amount.getD 0 else 0)).sum

/-- The output unit after the `get("unit", common_unit)` default. -/
def mergeOutUnit (outq : QuantityDoc) (common : Option String) :
    Option String :=
  match outq.unit with
  | some u => some u
  | none => common

/-- The scan accumulator `common` is consistent with the upcoming units. -/
def uniformFrom (co : Option String) (us : List String) : Prop :=
  match co with
  | some c => ∀ u ∈ us, u = c
  | none => ∀ u ∈ us, ∀ v ∈ us, u = v

/-- The merge source scan: with consistent units it accumulates the tracked
total and the common unit; otherwise it raises a `ValidationError`. -/
theorem mergeScan_spec (s : Store) :
    ∀ (ids : List String), (∀ bid ∈ ids, (getBatch s bid).isSome = true) →
      ∀ (t0 : ℚ) (co : Option String),
      (uniformFrom co (mergeUnits s ids) →
        mergeScan s ids t0 co =
          .ok (t0 + mergeTotal s ids, co.or (mergeUnits s ids).head?)) ∧
      (¬ uniformFrom co (mergeUnits s ids) →
        ∃ m, mergeScan s ids t0 co = .error (.validation m)) := by
  intro ids
  induction ids with
  | nil =>
    intro _ t0 co
    constructor
    · intro _
      simp [mergeScan, mergeUnits, mergeTotal, Option.or]
      cases co <;> rfl
    · intro hn
      exact absurd (by cases co <;> simp [uniformFrom, mergeUnits]) hn
  | cons bid rest ih =>
    intro hex t0 co
    obtain ⟨b, hgb⟩ := Option.isSome_iff_exists.mp (hex bid (by simp))
    have hexr : ∀ bid' ∈ rest, (getBatch s bid').isSome = true :=
      fun bid' h => hex bid' (by simp [h])
    have hunits : mergeUnits s (bid :: rest) =
        (match b.quantity with
         | none => mergeUnits s rest
         | some q => if qdTruthy q then
            (q.unit.getD "unit") :: mergeUnits s rest
           else mergeUnits s rest) := by
      simp only [mergeUnits, List.filterMap_cons, hgb]
      cases b.quantity with
      | none => rfl
      | some q =>
        by_cases hq : qdTruthy q = true
        · simp [hq]
        · simp [hq]
    have htotal : mergeTotal s (bid :: rest) =
        (match b.quantity with
         | none => mergeTotal s rest
         | some q => if qdTruthy q then
            q.amount.getD 0 + mergeTotal s rest
           else mergeTotal s rest) := by
      simp only [mergeTotal, List.map_cons, List.sum_cons, hgb]
      cases b.quantity with
      | none => simp
      | some q =>
        by_cases hq : qdTruthy q = true
        · simp [hq]
        · simp [hq]
    have hscan : mergeScan s (bid :: rest) t0 co =
        (match b.quantity with
         | none => mergeScan s rest t0 co
         | some q =>
           if ¬ qdTruthy q then mergeScan s rest t0 co
           else
             match co with
             | none => mergeScan s rest (t0 + q.amount.getD 0)
                 (some (q.unit.getD "unit"))
             | some cu =>
               if q.unit.getD "unit" ≠ cu then
                 .error (.validation
                   "Cannot merge batches with different units")
               else mergeScan s rest (t0 + q.amount.getD 0) (some cu)) := by
      simp only [mergeScan, hgb]
    cases hq : b.quantity with
    | none =>
      rw [hq] at hunits htotal hscan
      simp only [] at hunits htotal hscan
      rw [hunits, htotal, hscan]
      exact ih hexr t0 co
    | some q =>
      rw [hq] at hunits htotal hscan
      simp only [] at hunits htotal hscan
      by_cases hqt : qdTruthy q = true
      · rw [if_pos hqt] at hunits htotal
        rw [hunits, htotal, hscan]
        simp only [hqt, not_true, if_neg, if_false]
        cases co with
        | none =>
          constructor
          · intro huni
            have huni' : uniformFrom (some (q.unit.getD "unit"))
                (mergeUnits s rest) := by
              intro u hu
              exact huni u (by simp [hu]) (q.unit.getD "unit") (by simp)
            rw [(ih hexr (t0 + q.amount.getD 0)
              (some (q.unit.getD "unit"))).1 huni']
            simp [Option.or, add_assoc]
          · intro hnuni
            have hnuni' : ¬ uniformFrom (some (q.unit.getD "unit"))
                (mergeUnits s rest) := by
              intro huni'
              apply hnuni
              intro u hu v hv
              have hu' : u = q.unit.getD "unit" := by
                rcases List.mem_cons.mp hu with rfl | hu2
                · rfl
                · exact huni' u hu2
              have hv' : v = q.unit.getD "unit" := by
                rcases List.mem_cons.mp hv with rfl | hv2
                · rfl
                · exact huni' v hv2
              rw [hu', hv']
            exact (ih hexr (t0 + q.amount.getD 0)
              (some (q.unit.getD "unit"))).2 hnuni'
        | some cu =>
          simp only []
          by_cases hune : q.unit.getD "unit" = cu
          · rw [if_neg (by simp [hune])]
            constructor
            · intro huni
              have huni' : uniformFrom (some cu) (mergeUnits s rest) :=
                fun u hu => huni u (by simp [hu])
              rw [(ih hexr (t0 + q.amount.getD 0) (some cu)).1 huni']
              simp [Option.or, add_assoc]
            · intro hnuni
              have hnuni' : ¬ uniformFrom (some cu) (mergeUnits s rest) := by
                intro huni'
                apply hnuni
                intro u hu
                rcases List.mem_cons.mp hu with rfl | hu2
                · exact hune
                · exact huni' u hu2
              exact (ih hexr (t0 + q.amount.getD 0) (some cu)).2 hnuni'
          · rw [if_pos (by simp [hune])]
            constructor
            · intro huni
              exact absurd (huni (q.unit.getD "unit") (by simp)) hune
            · intro _
              exact ⟨_, rfl⟩
      · rw [if_neg hqt] at hunits htotal
        rw [hunits, htotal, hscan]
        simp only [hqt]
        rw [if_pos (by simp)]
        exact ih hexr t0 co

end VeriBatch

namespace VeriBatch

/-- A uniform unit list is exactly the absence of a mismatched pair. -/
theorem uniform_iff_notA (us : List String) :
    uniformFrom none us ↔ ¬ (∃ u ∈ us, ∃ v ∈ us, u ≠ v) := by
  simp only [uniformFrom]
  push_neg
  constructor
  · intro h u hu v hv; exact h u hu v hv
  · intro h u hu v hv; exact h u hu v hv

/-- `validate_merge_quantities` succeeds when the tracked units agree, the
resolved output unit matches, and the amount is within the 5% tolerance. -/
theorem validate_merge_ok (s : Store) (ids : List String)
    (outq : QuantityDoc)
    (hex : ∀ bid ∈ ids, (getBatch s bid).isSome = true)
    (hA : ¬ (∃ u ∈ mergeUnits s ids, ∃ v ∈ mergeUnits s ids, u ≠ v))
    (hB : mergeOutUnit outq (mergeUnits s ids).head? =
      (mergeUnits s ids).head?)
    (hC : outq.amount.getD 0 ≤ mergeTotal s ids * (105 / 100)) :
    validate_merge_quantities s ids outq = .ok () := by
  have hscan := (mergeScan_spec s ids hex 0 none).1
    ((uniform_iff_notA _).mpr hA)
  unfold validate_merge_quantities
  rw [hscan]
  simp only [zero_add]
  rw [show (match outq.unit with
      | some u => some u
      | none => (none : Option String).or (mergeUnits s ids).head?) =
    mergeOutUnit outq (mergeUnits s ids).head? from by
      simp [mergeOutUnit, Option.or]]
  rw [if_neg (by simp [hB])]
  rw [show mergeTotal s ids + mergeTotal s ids * (5 / 100) =
    mergeTotal s ids * (105 / 100) from by ring]
  rw [if_neg (not_lt.mpr hC)]

/-- `validate_merge_quantities` raises a `ValidationError` under any of the
three failure conditions. -/
theorem validate_merge_err (s : Store) (ids : List String)
    (outq : QuantityDoc)
    (hex : ∀ bid ∈ ids, (getBatch s bid).isSome = true)
    (h : (∃ u ∈ mergeUnits s ids, ∃ v ∈ mergeUnits s ids, u ≠ v) ∨
      mergeOutUnit outq (mergeUnits s ids).head? ≠
        (mergeUnits s ids).head? ∨
      outq.amount.getD 0 > mergeTotal s ids * (105 / 100)) :
    ∃ m, validate_merge_quantities s ids outq =
      .error (.validation m) := by
  by_cases hA : ∃ u ∈ mergeUnits s ids, ∃ v ∈ mergeUnits s ids, u ≠ v
  · obtain ⟨m, hm⟩ := (mergeScan_spec s ids hex 0 none).2
      (fun hu => ((uniform_iff_notA _).mp hu) hA)
    refine ⟨m, ?_⟩
    unfold validate_merge_quantities
    rw [hm]
  · have hscan := (mergeScan_spec s ids hex 0 none).1
      ((uniform_iff_notA _).mpr hA)
    unfold validate_merge_quantities
    rw [hscan]
    simp only [zero_add]
    rw [show (match outq.unit with
        | some u => some u
        | none => (none : Option String).or (mergeUnits s ids).head?) =
      mergeOutUnit outq (mergeUnits s ids).head? from by
        simp [mergeOutUnit, Option.or]]
    by_cases hB : mergeOutUnit outq (mergeUnits s ids).head? =
        (mergeUnits s ids).head?
    · rw [if_neg (by simp [hB])]
      rw [show mergeTotal s ids + mergeTotal s ids * (5 / 100) =
        mergeTotal s ids * (105 / 100) from by ring]
      rcases h with h | h | h
      · exact absurd h hA
      · exact absurd hB h
      · rw [if_pos h]
        exact ⟨_, rfl⟩
    · rw [if_pos (by simp [hB])]
      exact ⟨_, rfl⟩

/-- The `ValidationError` condition of `validate_merge_quantities` (all
sources existing): a tracked-unit mismatch, a resolved output-unit mismatch,
or an amount beyond `total × 1.05`. -/
theorem validate_merge_iff (s : Store) (ids : List String)
    (outq : QuantityDoc)
    (hex : ∀ bid ∈ ids, (getBatch s bid).isSome = true) :
    (∃ m, validate_merge_quantities s ids outq =
      .error (.validation m)) ↔
    ((∃ u ∈ mergeUnits s ids, ∃ v ∈ mergeUnits s ids, u ≠ v) ∨
      mergeOutUnit outq (mergeUnits s ids).head? ≠
        (mergeUnits s ids).head? ∨
      outq.amount.getD 0 > mergeTotal s ids * (105 / 100)) := by
  constructor
  · rintro ⟨m, hm⟩
    by_contra hn
    push_neg at hn
    rw [validate_merge_ok s ids outq hex (by push_neg; exact hn.1) hn.2.1
      hn.2.2] at hm
    cases hm
  · exact validate_merge_err s ids outq hex

end VeriBatch

namespace VeriBatch

/-- Source collection succeeds when all sources exist and share one item
id; the accumulated item id is `none` or that shared id. -/
theorem collectMergeSources_ok (s : Store) (iid : String) :
    ∀ (ids : List String) (acc : List Batch) (itm : Option String),
      (∀ bid ∈ ids, ∃ b, getBatch s bid = some b ∧ b.item_id = iid) →
      (itm = none ∨ itm = some iid) →
      ∃ bl itm', collectMergeSources s ids acc itm = .ok (bl, itm') ∧
        (itm' = none ∨ itm' = some iid) := by
  intro ids
  induction ids with
  | nil =>
    intro acc itm _ hitm
    exact ⟨acc, itm, rfl, hitm⟩
  | cons bid rest ih =>
    intro acc itm hexi hitm
    obtain ⟨b, hgb, hbi⟩ := hexi bid (by simp)
    have hexr : ∀ bid' ∈ rest, ∃ b', getBatch s bid' = some b' ∧
        b'.item_id = iid := fun bid' h => hexi bid' (by simp [h])
    simp only [collectMergeSources, hgb]
    by_cases htr : sTruthy itm = true
    · rw [if_neg (by simp [htr])]
      have hitm' : itm = some iid := by
        rcases hitm with rfl | h
        · simp [sTruthy] at htr
        · exact h
      rw [if_neg (by rw [hitm', hbi]; simp)]
      exact ih (acc ++ [b]) itm hexr hitm
    · rw [if_pos (by simpa using htr)]
      exact ih (acc ++ [b]) (some b.item_id) hexr (Or.inr (by rw [hbi]))

/-- `create_batch` with a negative quantity amount raises the quantity
`ValidationError`. -/
theorem create_batch_negative (s : Store) (bid : String)
    (item : Option String) (q : Quantity) (st : String)
    (pd ed ok loc : Option String) (hneg : q.amount < 0) :
    create_batch s bid item (some q) st pd ed ok loc =
      .error (.validation "Quantity amount cannot be negative") := by
  unfold create_batch
  have hv : validate_batch_quantity (some ⟨some q.amount, some q.unit⟩) =
      .error (.validation "Quantity amount cannot be negative") := by
    simp [validate_batch_quantity, qdTruthy, hneg]
  simp only [hv]

/-- `create_batch` with a non-negative quantity and no expiration date never
raises a `ValidationError`: it succeeds or fails with an
`IntegrityError`. -/
theorem create_batch_shape (s : Store) (bid : String)
    (item : Option String) (q : Quantity) (st : String)
    (pd ok loc : Option String) (hamt : 0 ≤ q.amount) :
    (∃ p, create_batch s bid item (some q) st pd none ok loc = .ok p) ∨
    (∃ m, create_batch s bid item (some q) st pd none ok loc =
      .error (.integrity m)) := by
  unfold create_batch
  have hv : validate_batch_quantity (some ⟨some q.amount, some q.unit⟩) =
      .ok () := by
    simp [validate_batch_quantity, qdTruthy, not_lt.mpr hamt]
  simp only [hv]
  have hdo : validate_date_order pd none = .ok () := by
    unfold validate_date_order; cases pd <;> rfl
  simp only [hdo]
  cases item with
  | none => exact Or.inr ⟨_, rfl⟩
  | some iid =>
    simp only []
    split
    · exact Or.inr ⟨_, rfl⟩
    · exact Or.inl ⟨_, rfl⟩

/-- `insertEvent` never raises a `ValidationError`. -/
theorem insertEvent_shape (s : Store) (ev : EventDoc) :
    (∃ p, insertEvent s ev = (.ok ev, p)) ∨
    (∃ m, (insertEvent s ev).1 = .error (.integrity m)) := by
  unfold insertEvent
  split
  · exact Or.inr ⟨_, rfl⟩
  · exact Or.inl ⟨_, rfl⟩

end VeriBatch

namespace VeriBatch

/-- C3 (as amended): with every source batch existing and sharing one item
id, `validate_merge_quantities` raises `ValidationError` exactly when two
tracked sources carry different units, or the resolved output unit differs
from the common input unit, or the output amount exceeds the tracked total
× 1.05; `merge_batches` raises `ValidationError` exactly under those
conditions or when the output amount is negative (rejected by
`create_batch`'s quantity validation). -/
theorem C3_merge_validation_conditions (s : Store) (ids : List String)
    (outq : QuantityDoc) (eid ob : String) (loc nts : Option String)
    (ts : String) (iid : String)
    (hexi : ∀ bid ∈ ids, ∃ b, getBatch s bid = some b ∧ b.item_id = iid) :
    ((∃ m, validate_merge_quantities s ids outq =
        .error (.validation m)) ↔
      ((∃ u ∈ mergeUnits s ids, ∃ v ∈ mergeUnits s ids, u ≠ v) ∨
        mergeOutUnit outq (mergeUnits s ids).head? ≠
          (mergeUnits s ids).head? ∨
        outq.amount.getD 0 > mergeTotal s ids * (105 / 100))) ∧
    ((∃ m, (merge_batches s eid ids ob outq loc nts ts).1 =
        .error (.validation m)) ↔
      ((∃ u ∈ mergeUnits s ids, ∃ v ∈ mergeUnits s ids, u ≠ v) ∨
        mergeOutUnit outq (mergeUnits s ids).head? ≠
          (mergeUnits s ids).head? ∨
        outq.amount.getD 0 > mergeTotal s ids * (105 / 100) ∨
        outq.amount.getD 0 < 0)) := by
  have hex : ∀ bid ∈ ids, (getBatch s bid).isSome = true := by
    intro bid h
    obtain ⟨b, hb, _⟩ := hexi bid h
    rw [hb]
    rfl
  refine ⟨validate_merge_iff s ids outq hex, ?_⟩
  by_cases hV : (∃ u ∈ mergeUnits s ids, ∃ v ∈ mergeUnits s ids, u ≠ v) ∨
      mergeOutUnit outq (mergeUnits s ids).head? ≠
        (mergeUnits s ids).head? ∨
      outq.amount.getD 0 > mergeTotal s ids * (105 / 100)
  · obtain ⟨m, hm⟩ := validate_merge_err s ids outq hex hV
    unfold merge_batches
    rw [hm]
    refine iff_of_true ⟨m, rfl⟩ ?_
    rcases hV with h | h | h
    · exact Or.inl h
    · exact Or.inr (Or.inl h)
    · exact Or.inr (Or.inr (Or.inl h))
  · push_neg at hV
    have hval := validate_merge_ok s ids outq hex
      (by push_neg; exact hV.1) hV.2.1 hV.2.2
    have hnotV : ¬ ((∃ u ∈ mergeUnits s ids, ∃ v ∈ mergeUnits s ids,
        u ≠ v) ∨
        mergeOutUnit outq (mergeUnits s ids).head? ≠
          (mergeUnits s ids).head? ∨
        outq.amount.getD 0 > mergeTotal s ids * (105 / 100) ∨
        outq.amount.getD 0 < 0) ∨
        (outq.amount.getD 0 < 0) := by
      by_cases hneg : outq.amount.getD 0 < 0
      · exact Or.inr hneg
      · refine Or.inl ?_
        rintro (h | h | h | h)
        · obtain ⟨u, hu, v, hv, hne⟩ := h
          exact hne (hV.1 u hu v hv)
        · exact h hV.2.1
        · exact absurd h (not_lt.mpr hV.2.2)
        · exact hneg h
    unfold merge_batches
    rw [hval]
    simp only []
    obtain ⟨bl, itm', hcol, _⟩ := collectMergeSources_ok s iid ids [] none
      hexi (Or.inl rfl)
    rw [hcol]
    simp only []
    by_cases hneg : outq.amount.getD 0 < 0
    · rw [create_batch_negative s ob itm'
        ⟨outq.amount.getD 0, outq.unit.getD "unit"⟩ "active"
        (some (dateOfTimestamp ts)) none (some "merged") loc hneg]
      exact iff_of_true ⟨_, rfl⟩ (Or.inr (Or.inr (Or.inr hneg)))
    · have hnV : ¬ ((∃ u ∈ mergeUnits s ids, ∃ v ∈ mergeUnits s ids,
          u ≠ v) ∨
          mergeOutUnit outq (mergeUnits s ids).head? ≠
            (mergeUnits s ids).head? ∨
          outq.amount.getD 0 > mergeTotal s ids * (105 / 100) ∨
          outq.amount.getD 0 < 0) := by
        rcases hnotV with h | h
        · exact h
        · exact absurd h hneg
      rcases create_batch_shape s ob itm'
          ⟨outq.amount.getD 0, outq.unit.getD "unit"⟩ "active"
          (some (dateOfTimestamp ts)) (some "merged") loc
          (not_lt.mp hneg) with ⟨⟨b1, s1⟩, hcb⟩ | ⟨m, hcb⟩
      · rw [hcb]
        simp only []
        rcases insertEvent_shape (ids.foldl (fun t bid =>
            (update_batch_status t bid "depleted").2) s1)
            ⟨eid, "merge", ts, bl.map (fun b => ⟨some b.id, b.quantity⟩),
             [⟨some ob, none, some outq⟩], nts, loc, none⟩ with
          ⟨p, hie⟩ | ⟨m, hie⟩
        · rw [hie]
          refine iff_of_false ?_ hnV
          rintro ⟨m', hm'⟩
          cases hm'
        · refine iff_of_false ?_ hnV
          rintro ⟨m', hm'⟩
          rw [hie] at hm'
          cases hm'
      · rw [hcb]
        refine iff_of_false ?_ hnV
        rintro ⟨m', hm'⟩
        cases hm'

end VeriBatch

namespace VeriBatch

/-- C3 counterexample: merging the single 10 kg source into an output of
−1 kg satisfies none of the claim's three failure conditions, yet
`merge_batches` raises `ValidationError` (negative quantity, caught at
output-batch creation). -/
theorem C3_counterexample :
    (merge_batches activeStore "ev1" ["src"] "m" ⟨some (-1), some "kg"⟩
      none none "T").1 =
      .error (.validation "Quantity amount cannot be negative") ∧
    ¬ ((∃ u ∈ mergeUnits activeStore ["src"],
        ∃ v ∈ mergeUnits activeStore ["src"], u ≠ v) ∨
      mergeOutUnit ⟨some (-1), some "kg"⟩
          (mergeUnits activeStore ["src"]).head? ≠
        (mergeUnits activeStore ["src"]).head? ∨
      (⟨some (-1), some "kg"⟩ : QuantityDoc).amount.getD 0 >
        mergeTotal activeStore ["src"] * (105 / 100)) := by
  have hgb : getBatch activeStore "src" = some (mkBatch "src" 10 "active") :=
    rfl
  have htot : mergeTotal activeStore ["src"] = 10 := by
    simp [mergeTotal, hgb, mkBatch, kgQ, qdTruthy]
  have hu : mergeUnits activeStore ["src"] = ["kg"] := rfl
  constructor
  · have hval : validate_merge_quantities activeStore ["src"]
        ⟨some (-1), some "kg"⟩ = .ok () := by
      refine validate_merge_ok activeStore ["src"] ⟨some (-1), some "kg"⟩
        (fun bid h => ?_) ?_ ?_ ?_
      · rcases List.mem_singleton.mp h with rfl
        rw [hgb]; rfl
      · rw [hu]; decide
      · rw [hu]; rfl
      · rw [htot]; norm_num
    unfold merge_batches
    rw [hval]
    rfl
  · rintro (h | h | h)
    · rw [hu] at h
      exact absurd h (by decide)
    · rw [hu] at h
      exact h rfl
    · rw [htot] at h
      norm_num at h

/-- C3 witness: merging the two 10 kg batches into 19 kg passes validation
(19 ≤ 21), while 21.5 kg fails it. -/
theorem C3_witness :
    (¬ ∃ m, validate_merge_quantities twoTensStore ["a", "b"] (kgQ 19) =
      .error (.validation m)) ∧
    (∃ m, validate_merge_quantities twoTensStore ["a", "b"]
      (kgQ (43 / 2)) = .error (.validation m)) := by
  have h1 : getBatch twoTensStore "a" = some (mkBatch "a" 10 "active") := rfl
  have h2 : getBatch twoTensStore "b" = some (mkBatch "b" 10 "active") := rfl
  have hexi : ∀ bid ∈ ["a", "b"], ∃ b, getBatch twoTensStore bid = some b ∧
      b.item_id = "item1" := by
    intro bid h
    rcases List.mem_cons.mp h with rfl | h'
    · exact ⟨mkBatch "a" 10 "active", h1, rfl⟩
    · rcases List.mem_cons.mp h' with rfl | h''
      · exact ⟨mkBatch "b" 10 "active", h2, rfl⟩
      · simp at h''
  have htot : mergeTotal twoTensStore ["a", "b"] = 20 := by
    simp [mergeTotal, h1, h2, mkBatch, kgQ, qdTruthy]
    norm_num
  have hu : mergeUnits twoTensStore ["a", "b"] = ["kg", "kg"] := rfl
  constructor
  · intro hL
    have := (C3_merge_validation_conditions twoTensStore ["a", "b"]
      (kgQ 19) "ev" "m" none none "T" "item1" hexi).1.mp hL
    rcases this with h | h | h
    · rw [hu] at h
      exact absurd h (by decide)
    · rw [hu] at h
      exact h rfl
    · rw [htot] at h
      norm_num [kgQ] at h
  · exact (C3_merge_validation_conditions twoTensStore ["a", "b"]
      (kgQ (43 / 2)) "ev" "m" none none "T" "item1" hexi).1.mpr
      (Or.inr (Or.inr (by rw [htot]; norm_num [kgQ])))

end VeriBatch

namespace VeriBatch

/-- C4 counterexample: splitting the disposed 10 kg batch `src` succeeds —
`validate_split_quantities` checks only quantities, not status, so a batch
in a terminal status is consumed again. -/
theorem C4_counterexample :
    (split_batch disposedStore "ev1" "src" [⟨some "b1", none, some (kgQ 5)⟩]
      none none "T").1 =
      .ok ⟨"ev1", "split", "T", [⟨some "src", some (kgQ 10)⟩],
        [⟨some "b1", none, some (kgQ 5)⟩], none, none, none⟩ ∧
    (getBatch disposedStore "src").map (fun b => b.status) =
      some "disposed" := by
  refine ⟨?_, rfl⟩
  have hval : validate_split_quantities disposedStore "src"
      [⟨some "b1", none, some (kgQ 5)⟩] = .ok () := by
    rw [validate_split_spec disposedStore "src" _
      (mkBatch "src" 10 "disposed") (kgQ 10) rfl rfl (by decide)
      (by decide)]
    rw [if_neg]
    norm_num [splitOutputAmount, kgQ]
  unfold split_batch
  rw [hval]
  rfl

/-- C4 (as amended): only `record_processing_event` refuses inputs in a
terminal status ({depleted, disposed, recalled}); `split_batch` and
`merge_batches` perform no status check on their sources and succeed on a
disposed source batch. -/
theorem C4_terminal_status_gating :
    (∀ (s : Store) (eid : String) (pid : Option String)
      (ins : List InputRef) (outs : List OutputSpec)
      (loc nts : Option String) (ts : String) (bid : String) (b : Batch),
      bid ≠ "" → (∃ i ∈ ins, i.batch_id = some bid) →
      getBatch s bid = some b →
      b.status ∈ (["depleted", "disposed", "recalled"] : List String) →
      ∃ m, (record_processing_event s eid pid ins outs loc nts ts).1 =
        .error (.validation m)) ∧
    (split_batch disposedStore "ev1" "src" [⟨some "b1", none, some (kgQ 5)⟩]
      none none "T").1 =
      .ok ⟨"ev1", "split", "T", [⟨some "src", some (kgQ 10)⟩],
        [⟨some "b1", none, some (kgQ 5)⟩], none, none, none⟩ ∧
    (merge_batches disposedStore "evM" ["src"] "m" (kgQ 5) none none
      "T").1 =
      .ok ⟨"evM", "merge", "T", [⟨some "src", some (kgQ 10)⟩],
        [⟨some "m", none, some (kgQ 5)⟩], none, none, none⟩ := by
  refine ⟨?_, ?_, ?_⟩
  · intro s eid pid ins outs loc nts ts bid b hne hmem hb hterm
    have hst : b.status ≠ "active" ∧ b.status ≠ "quarantined" := by
      rcases List.mem_cons.mp hterm with h | h'
      · rw [h]; exact ⟨by decide, by decide⟩
      · rcases List.mem_cons.mp h' with h | h''
        · rw [h]; exact ⟨by decide, by decide⟩
        · rcases List.mem_cons.mp h'' with h | h3
          · rw [h]; exact ⟨by decide, by decide⟩
          · simp at h3
    exact (record_processing_rejects_unavailable s eid pid ins outs loc nts
      ts bid b hne hmem hb hst).1
  · have hval : validate_split_quantities disposedStore "src"
        [⟨some "b1", none, some (kgQ 5)⟩] = .ok () := by
      rw [validate_split_spec disposedStore "src" _
        (mkBatch "src" 10 "disposed") (kgQ 10) rfl rfl (by decide)
        (by decide)]
      rw [if_neg]
      norm_num [splitOutputAmount, kgQ]
    unfold split_batch
    rw [hval]
    rfl
  · have hgb : getBatch disposedStore "src" =
        some (mkBatch "src" 10 "disposed") := rfl
    have htot : mergeTotal disposedStore ["src"] = 10 := by
      simp [mergeTotal, hgb, mkBatch, kgQ, qdTruthy]
    have hval : validate_merge_quantities disposedStore ["src"] (kgQ 5) =
        .ok () := by
      refine validate_merge_ok disposedStore ["src"] (kgQ 5)
        (fun bid h => ?_) ?_ ?_ ?_
      · rcases List.mem_singleton.mp h with rfl
        rw [hgb]; rfl
      · rw [show mergeUnits disposedStore ["src"] = ["kg"] from rfl]
        decide
      · rw [show mergeUnits disposedStore ["src"] = ["kg"] from rfl]
        rfl
      · rw [htot]; norm_num [kgQ]
    unfold merge_batches
    rw [hval]
    rfl

/-- C4 witness: recording a processing event that consumes the disposed
batch `src` fails with a `ValidationError`. -/
theorem C4_witness :
    ∃ m, (record_processing_event disposedStore "ev1" none
      [⟨some "src", some (kgQ 1)⟩] [] none none "T").1 =
      .error (.validation m) :=
  C4_terminal_status_gating.1 disposedStore "ev1" none
    [⟨some "src", some (kgQ 1)⟩] [] none none "T" "src"
    (mkBatch "src" 10 "disposed") (by decide)
    ⟨⟨some "src", some (kgQ 1)⟩, by simp, rfl⟩ rfl (by decide)

end VeriBatch

namespace VeriBatch

namespace entities

/-- A canonical actor document is well-formed. -/
theorem canonical_actor_validates (d : ActorDoc)
    (h : canonicalActorDoc d = true) : validate_actor_doc d = true := by
  obtain ⟨sch, ty, i?, n?, kind, contacts, address, certs, ext, ca, ua⟩ := d
  simp only [canonicalActorDoc, Bool.and_eq_true, beq_iff_eq] at h
  obtain ⟨⟨⟨⟨⟨⟨⟨⟨⟨⟨hsch, hty⟩, hi⟩, hn⟩, _⟩, _⟩, _⟩, _⟩, _⟩, _⟩, _⟩ := h
  subst hsch hty
  simp only [validate_actor_doc, Bool.and_eq_true, beq_iff_eq]
  exact ⟨⟨⟨by decide, trivial⟩, hi⟩, hn⟩

/-- A canonical location document is well-formed. -/
theorem canonical_location_validates (d : LocationDoc)
    (h : canonicalLocationDoc d = true) : validate_location_doc d = true := by
  obtain ⟨sch, ty, i?, a?, n?, kind, coords, address, ext, ca, ua⟩ := d
  simp only [canonicalLocationDoc, Bool.and_eq_true, beq_iff_eq] at h
  obtain ⟨⟨⟨⟨⟨⟨⟨⟨⟨⟨hsch, hty⟩, hi⟩, ha⟩, hn⟩, _⟩, _⟩, _⟩, _⟩, _⟩, _⟩ := h
  subst hsch hty
  simp only [validate_location_doc, Bool.and_eq_true, beq_iff_eq]
  exact ⟨⟨⟨⟨by decide, trivial⟩, hi⟩, ha⟩, hn⟩

/-- A canonical item document is well-formed. -/
theorem canonical_item_validates (d : ItemDoc)
    (h : canonicalItemDoc d = true) : validate_item_doc d = true := by
  obtain ⟨sch, ty, i?, a?, n?, cat, unit, desc, ext, ca, ua⟩ := d
  simp only [canonicalItemDoc, Bool.and_eq_true, beq_iff_eq] at h
  obtain ⟨⟨⟨⟨⟨⟨⟨⟨⟨⟨hsch, hty⟩, hi⟩, ha⟩, hn⟩, _⟩, _⟩, _⟩, _⟩, _⟩, _⟩ := h
  subst hsch hty
  simp only [validate_item_doc, Bool.and_eq_true, beq_iff_eq]
  exact ⟨⟨⟨⟨by decide, trivial⟩, hi⟩, ha⟩, hn⟩

/-- A canonical batch document is well-formed. -/
theorem canonical_batch_validates (d : BatchDoc)
    (h : canonicalBatchDoc d = true) : validate_batch_doc d = true := by
  obtain ⟨sch, ty, i?, a?, it?, loc, qty, st?, ok, pd, ed, bbd, ext, ats,
    ca, ua⟩ := d
  simp only [canonicalBatchDoc, Bool.and_eq_true, beq_iff_eq] at h
  obtain ⟨⟨⟨⟨⟨⟨⟨⟨⟨⟨⟨⟨⟨⟨⟨hsch, hty⟩, hi⟩, ha⟩, hit⟩, _⟩, hqty⟩, hstat⟩,
    _⟩, _⟩, _⟩, _⟩, _⟩, _⟩, _⟩, _⟩ := h
  subst hsch hty
  simp only [validate_batch_doc, Bool.and_eq_true, beq_iff_eq]
  refine ⟨⟨⟨⟨⟨⟨by decide, trivial⟩, hi⟩, ha⟩, hit⟩, ?_⟩, hqty⟩
  cases st? with
  | none => rfl
  | some st => exact (Bool.and_eq_true _ _ ▸ hstat).1

/-- A canonical process document is well-formed. -/
theorem canonical_process_validates (d : ProcessDoc)
    (h : canonicalProcessDoc d = true) : validate_process_doc d = true := by
  obtain ⟨sch, ty, i?, a?, n?, kind, ver, steps, ins, outs, ats, ca, ua⟩ := d
  simp only [canonicalProcessDoc, Bool.and_eq_true, beq_iff_eq] at h
  obtain ⟨⟨⟨⟨⟨⟨⟨⟨⟨⟨⟨⟨hsch, hty⟩, hi⟩, ha⟩, hn⟩, _⟩, _⟩, _⟩, _⟩, _⟩, _⟩,
    _⟩, _⟩ := h
  subst hsch hty
  simp only [validate_process_doc, Bool.and_eq_true, beq_iff_eq]
  exact ⟨⟨⟨⟨by decide, trivial⟩, hi⟩, ha⟩, hn⟩

/-- A canonical event document is well-formed. -/
theorem canonical_event_validates (d : EventEntityDoc)
    (h : canonicalEventDoc d = true) : validate_event_doc d = true := by
  obtain ⟨sch, ty, i?, a?, ts?, et?, loc, pid, ins, outs, pms, notes, pb,
    ext, ats, ca, ua⟩ := d
  simp only [canonicalEventDoc, Bool.and_eq_true, beq_iff_eq] at h
  obtain ⟨⟨⟨⟨⟨⟨⟨⟨⟨⟨⟨⟨⟨⟨⟨⟨hsch, hty⟩, hi⟩, ha⟩, hts⟩, het⟩, _⟩, _⟩, _⟩,
    _⟩, _⟩, _⟩, _⟩, _⟩, _⟩, _⟩, _⟩ := h
  subst hsch hty
  simp only [validate_event_doc, Bool.and_eq_true, beq_iff_eq]
  exact ⟨⟨⟨⟨⟨by decide, trivial⟩, hi⟩, ha⟩, hts⟩, het⟩

end entities

/-- C8 (as amended): for each of the six core entity types, every
well-formed document in the serializer's canonical form — the exact
`SCHEMA_VERSION`, present optional strings truthy, present dicts/lists
non-empty with canonical entries, and no explicit default (`status:
"active"`) — deserializes successfully and re-serializes to exactly the same
document. -/
theorem C8_canonical_roundtrip :
    (∀ d : entities.ActorDoc, entities.canonicalActorDoc d = true →
      entities.validate_actor_doc d = true ∧
      ∃ e, entities.Actor.from_dict d = some e ∧
        entities.Actor.to_dict e = d) ∧
    (∀ d : entities.LocationDoc, entities.canonicalLocationDoc d = true →
      entities.validate_location_doc d = true ∧
      ∃ e, entities.Location.from_dict d = some e ∧
        entities.Location.to_dict e = d) ∧
    (∀ d : entities.ItemDoc, entities.canonicalItemDoc d = true →
      entities.validate_item_doc d = true ∧
      ∃ e, entities.Item.from_dict d = some e ∧
        entities.Item.to_dict e = d) ∧
    (∀ d : entities.BatchDoc, entities.canonicalBatchDoc d = true →
      entities.validate_batch_doc d = true ∧
      ∃ e, entities.Batch.from_dict d = some e ∧
        entities.Batch.to_dict e = d) ∧
    (∀ d : entities.ProcessDoc, entities.canonicalProcessDoc d = true →
      entities.validate_process_doc d = true ∧
      ∃ e, entities.Process.from_dict d = some e ∧
        entities.Process.to_dict e = d) ∧
    (∀ d : entities.EventEntityDoc, entities.canonicalEventDoc d = true →
      entities.validate_event_doc d = true ∧
      ∃ e, entities.Event.from_dict d = some e ∧
        entities.Event.to_dict e = d) :=
  ⟨fun d h => ⟨entities.canonical_actor_validates d h,
    entities.actor_roundtrip d h⟩,
   fun d h => ⟨entities.canonical_location_validates d h,
    entities.location_roundtrip d h⟩,
   fun d h => ⟨entities.canonical_item_validates d h,
    entities.item_roundtrip d h⟩,
   fun d h => ⟨entities.canonical_batch_validates d h,
    entities.batch_roundtrip d h⟩,
   fun d h => ⟨entities.canonical_process_validates d h,
    entities.process_roundtrip d h⟩,
   fun d h => ⟨entities.canonical_event_validates d h,
    entities.event_roundtrip d h⟩⟩

/-- The well-formed batch document with an explicit default status used as
the C8 counterexample. -/
def ceBatchDoc : entities.BatchDoc :=
  { schema := some entities.SCHEMA_VERSION
    type := some "batch"
    id := some "b1"
    actor_id := some "a1"
    item_id := some "i1"
    location_id := none
    quantity := none
    status := some "active"
    origin_kind := none
    production_date := none
    expiration_date := none
    best_before_date := none
    external_ids := none
    attachments := none
    created_at := none
    updated_at := none }

/-- C8 counterexample: a well-formed batch document carrying an explicit
`status: "active"` does not round-trip — `to_dict` drops the default status
key, so `serialize(deserialize(doc)) ≠ doc`. -/
theorem C8_counterexample :
    entities.validate_batch_doc ceBatchDoc = true ∧
    (entities.Batch.from_dict ceBatchDoc).map entities.Batch.to_dict ≠
      some ceBatchDoc := by
  exact ⟨by decide, by decide⟩

end VeriBatch

namespace VeriBatch

/-- Concrete canonical actor document for the C8 witness. -/
def wActorDoc : entities.ActorDoc :=
  ⟨some entities.SCHEMA_VERSION, some "actor", some "a1",
   some "Acme Farms", some "producer", none, none, none, none, none, none⟩

/-- Concrete canonical location document for the C8 witness. -/
def wLocationDoc : entities.LocationDoc :=
  ⟨some entities.SCHEMA_VERSION, some "location", some "l1", some "a1",
   some "Field 7", none, none, none, none, none, none⟩

/-- Concrete canonical item document for the C8 witness. -/
def wItemDoc : entities.ItemDoc :=
  ⟨some entities.SCHEMA_VERSION, some "item", some "i1", some "a1",
   some "Tomatoes", none, some "kg", none, none, none, none⟩

/-- Concrete canonical batch document for the C8 witness. -/
def wBatchDoc : entities.BatchDoc :=
  ⟨some entities.SCHEMA_VERSION, some "batch", some "b1", some "a1",
   some "i1", none, some ⟨some 5, some "kg"⟩, some "depleted", none, none,
   none, none, none, none, none, none⟩

/-- Concrete canonical process document for the C8 witness. -/
def wProcessDoc : entities.ProcessDoc :=
  ⟨some entities.SCHEMA_VERSION, some "process", some "p1", some "a1",
   some "Washing", none, none, none, none, none, none, none, none⟩

/-- Concrete canonical event document for the C8 witness. -/
def wEventDoc : entities.EventEntityDoc :=
  ⟨some entities.SCHEMA_VERSION, some "event", some "e1", some "a1",
   some "2024-01-01T00:00:00Z", some "processing", none, none,
   some [⟨some "b0", some ⟨some 2, some "kg"⟩, none⟩], none, none, none,
   none, none, none, none, none⟩

/-- C8 witness: the amended round-trip theorem applied at one concrete
canonical document of each entity type. -/
theorem C8_witness :
    (∃ e, entities.Actor.from_dict wActorDoc = some e ∧
      entities.Actor.to_dict e = wActorDoc) ∧
    (∃ e, entities.Location.from_dict wLocationDoc = some e ∧
      entities.Location.to_dict e = wLocationDoc) ∧
    (∃ e, entities.Item.from_dict wItemDoc = some e ∧
      entities.Item.to_dict e = wItemDoc) ∧
    (∃ e, entities.Batch.from_dict wBatchDoc = some e ∧
      entities.Batch.to_dict e = wBatchDoc) ∧
    (∃ e, entities.Process.from_dict wProcessDoc = some e ∧
      entities.Process.to_dict e = wProcessDoc) ∧
    (∃ e, entities.Event.from_dict wEventDoc = some e ∧
      entities.Event.to_dict e = wEventDoc) :=
  ⟨(C8_canonical_roundtrip.1 wActorDoc (by decide)).2,
   (C8_canonical_roundtrip.2.1 wLocationDoc (by decide)).2,
   (C8_canonical_roundtrip.2.2.1 wItemDoc (by decide)).2,
   (C8_canonical_roundtrip.2.2.2.1 wBatchDoc (by decide)).2,
   (C8_canonical_roundtrip.2.2.2.2.1 wProcessDoc (by decide)).2,
   (C8_canonical_roundtrip.2.2.2.2.2 wEventDoc (by decide)).2⟩

end VeriBatch
